import Mathlib

/-!
# npglib: sprites and voxel sprites

A shallow embedding of `structs.go`.  Go `int` values are modelled as `Int`
(with an explicit 64-bit wrap wherever a caller-supplied integer enters an
addition or subtraction), and a run-time panic (index out of range, division
by zero) as `none` in the `Option` monad.  The grids owned by a sprite are
lists of rows: `pixels` is unexported and every `Generate*` method builds each
row as a fresh slice, so no two rows share storage.  The board handed to
`DrawSpriteOnBoard` comes from the caller and is written in place, so it is a
list of row headers over a memory of elements, in which rows can overlap.
-/

namespace Npglib

/-! ## Go run-time primitives -/

/-- Two's-complement wrap of an integer into the range of a 64-bit Go `int`. -/
def wrapInt (z : Int) : Int :=
  (z + 9223372036854775808) % 18446744073709551616 - 9223372036854775808

/-- Slice indexing `s[i]`: a panic (`none`) when `i` is negative or not below
`len(s)`. -/
def index? {α : Type} (s : List α) (i : Int) : Option α :=
  if 0 ≤ i then s[i.toNat]? else none

/-- Slice assignment `s[i] = v`: a panic (`none`) when `i` is negative or not
below `len(s)`. -/
def assign? {α : Type} (s : List α) (i : Int) (v : α) : Option (List α) :=
  if 0 ≤ i ∧ i < (s.length : Int) then some (s.set i.toNat v) else none

/-- The pairs produced by `for range n` over an integer: `n` iterations for a
positive `n`, none otherwise. -/
def rangeInt (n : Int) : List Nat :=
  List.range n.toNat

/-! ## Data model -/

/-- The type `color.RGBA`: four 8-bit channels. -/
structure RGBA where
  R : Fin 256
  G : Fin 256
  B : Fin 256
  A : Fin 256
  deriving DecidableEq, Repr

/-- The struct `Sprite`: `Size` is `[2]int` (width, height), `pixels` is a
slice of rows. -/
structure Sprite where
  Size : Int × Int
  pixels : List (List RGBA)
  deriving DecidableEq, Repr

/-- The struct `VoxelSprite`: `Size` is `[3]int` (width, height, depth),
`pixels` is a slice of planes of rows. -/
structure VoxelSprite where
  Size : Int × Int × Int
  pixels : List (List (List RGBA))
  deriving DecidableEq, Repr

/-- The cell of a grid at row `r`, column `c`, when it exists. -/
def cellAt (g : List (List RGBA)) (r c : Nat) : Option RGBA :=
  (g[r]?).bind (fun row => row[c]?)

/-! ## Sprite -/

/-- The method `Sprite.Generate`: `Size[1]` rows, each built by `Size[0]` appends of
`initColor`. -/
def Sprite.Generate (spr : Sprite) (initColor : RGBA) : Sprite :=
  { spr with
    pixels := (rangeInt spr.Size.2).foldl
      (fun pixels _ =>
        pixels ++ [(rangeInt spr.Size.1).foldl (fun o _ => o ++ [initColor]) []])
      [] }

/-- The method `Sprite.GetPixel`: only upper bounds are tested before indexing. -/
def Sprite.GetPixel (spr : Sprite) (x y : Int) : Option (RGBA × Bool) :=
  if y < (spr.pixels.length : Int) then
    match index? spr.pixels y with
    | none => none
    | some row =>
      if x < (row.length : Int) then
        match index? row x with
        | none => none
        | some col => some (col, true)
      else some (⟨0, 0, 0, 0⟩, false)
  else some (⟨0, 0, 0, 0⟩, false)

/-- The method `Sprite.SetPixel`: the updated sprite and the returned flag. -/
def Sprite.SetPixel (spr : Sprite) (x y : Int) (color : RGBA) : Option (Sprite × Bool) :=
  if y < (spr.pixels.length : Int) then
    match index? spr.pixels y with
    | none => none
    | some row =>
      if x < (row.length : Int) then
        match assign? row x color with
        | none => none
        | some row' => some ({ spr with pixels := spr.pixels.set y.toNat row' }, true)
      else some (spr, false)
  else some (spr, false)

/-- The call `strings.Split(str, "\n")`: the pieces between newline characters,
one more piece than there are newlines. -/
def splitNewline : List Char → List (List Char)
  | [] => [[]]
  | c :: cs =>
    if c = '\n' then [] :: splitNewline cs
    else
      match splitNewline cs with
      | [] => [[c]]
      | l :: ls => (c :: l) :: ls

/-- The colour chosen for one character in `GenerateFromString`. -/
def decodeChar (mode : Int) (char : Char) : RGBA :=
  if mode ≤ 0 then
    if char = '\t' ∨ char = ' ' then ⟨0, 0, 0, 255⟩
    else ⟨255, 255, 255, 255⟩
  else
    if char = 'r' then ⟨255, 0, 0, 255⟩
    else if char = 'g' then ⟨0, 255, 0, 255⟩
    else if char = 'b' then ⟨0, 0, 255, 255⟩
    else if char = '\t' ∨ char = ' ' then ⟨0, 0, 0, 255⟩
    else ⟨255, 255, 255, 255⟩

/-- Inner loop of `GenerateFromString`, `for i2, char := range l`: ranging over
a string yields each character with the byte offset `i2` at which its UTF-8
encoding starts, so the offset advances by the encoded size of the character. -/
def genRow (size0 mode : Int) : Nat → List Char → List RGBA → List RGBA
  | _, [], o => o
  | i2, char :: rest, o =>
    if (i2 : Int) > wrapInt (size0 - 1) then
      genRow size0 mode (i2 + char.utf8Size) rest o
    else
      genRow size0 mode (i2 + char.utf8Size) rest (o ++ [decodeChar mode char])

/-- Outer loop of `GenerateFromString`, `for i1, l := range lines`. -/
def genRows (size : Int × Int) (mode : Int) :
    Nat → List (List Char) → List (List RGBA) → List (List RGBA)
  | _, [], pixels => pixels
  | i1, l :: rest, pixels =>
    if (i1 : Int) > wrapInt (size.2 - 1) then
      genRows size mode (i1 + 1) rest pixels
    else
      genRows size mode (i1 + 1) rest (pixels ++ [genRow size.1 mode 0 l []])

/-- The method `Sprite.GenerateFromString`. -/
def Sprite.GenerateFromString (spr : Sprite) (str : String) (mode : Int) : Sprite :=
  { spr with pixels := genRows spr.Size mode 0 (splitNewline str.toList) [] }

/-- The header of a board row `[]color.RGBA`: the address `ptr` of its first
element in `Board.mem` and its length. -/
structure RowSlice where
  ptr : Nat
  len : Nat
  deriving DecidableEq, Repr

/-- A board `[][]color.RGBA` as `DrawSpriteOnBoard` receives it: the row slice
headers and the memory holding the row elements.  Element `c` of row `r` lives
at address `rows[r].ptr + c`, so rows whose headers overlap share storage. -/
structure Board where
  rows : List RowSlice
  mem : List RGBA
  deriving DecidableEq, Repr

/-- The board cell `board[r][c]`, when it exists. -/
def boardCell (b : Board) (r c : Nat) : Option RGBA :=
  (b.rows[r]?).bind (fun hdr => if c < hdr.len then b.mem[hdr.ptr + c]? else none)

/-- The board read as a grid: each row header resolved to its elements. -/
def boardGrid (b : Board) : List (List RGBA) :=
  b.rows.map (fun hdr => (b.mem.drop hdr.ptr).take hdr.len)

/-- Row headers for rows allocated one after the other from address `p`. -/
def rowHeadersFrom : Nat → List (List RGBA) → List RowSlice
  | _, [] => []
  | p, row :: rest => ⟨p, row.length⟩ :: rowHeadersFrom (p + row.length) rest

/-- The board whose rows are separately allocated copies of the rows of `g`. -/
def boardOfRows (g : List (List RGBA)) : Board :=
  ⟨rowHeadersFrom 0 g, g.flatten⟩

/-- The assignment `mBoard[iy][ix] = x` for the row header `hdr = mBoard[iy]`:
a panic (`none`) when `ix` is negative or not below the row length, otherwise a
write to the element's address. -/
def assignCell? (mBoard : Board) (hdr : RowSlice) (ix : Int) (x : RGBA) : Option Board :=
  if 0 ≤ ix ∧ ix < (hdr.len : Int) then
    some ⟨mBoard.rows, mBoard.mem.set (hdr.ptr + ix.toNat) x⟩
  else none

/-- Inner loop of `DrawSpriteOnBoard` over one sprite row `y`; `ix` is the range
index of the head of the remaining cells, `iy` the already shifted row index.
`len(mBoard[iy])` and `mBoard[iy][ix] = x` both index `mBoard` at `iy`. -/
def drawRow (offsetX iy : Int) : Nat → List RGBA → Board → Option Board
  | _, [], mBoard => some mBoard
  | ix, x :: rest, mBoard =>
    match index? mBoard.rows iy with
    | none => none
    | some hdr =>
      if wrapInt ((ix : Int) + offsetX) > (hdr.len : Int) then
        drawRow offsetX iy (ix + 1) rest mBoard
      else
        match assignCell? mBoard hdr (wrapInt ((ix : Int) + offsetX)) x with
        | none => none
        | some mBoard' => drawRow offsetX iy (ix + 1) rest mBoard'

/-- Outer loop of `DrawSpriteOnBoard`; `iy` is the range index of the head of the
remaining sprite rows. -/
def drawRows (offsetX offsetY : Int) : Nat → List (List RGBA) → Board → Option Board
  | _, [], mBoard => some mBoard
  | iy, y :: rest, mBoard =>
    if wrapInt ((iy : Int) + offsetY) > (mBoard.rows.length : Int) then
      drawRows offsetX offsetY (iy + 1) rest mBoard
    else
      match drawRow offsetX (wrapInt ((iy : Int) + offsetY)) 0 y mBoard with
      | none => none
      | some mBoard' => drawRows offsetX offsetY (iy + 1) rest mBoard'

/-- The method `Sprite.DrawSpriteOnBoard`: the board after the call, or `none`
when an index expression panics. -/
def Sprite.DrawSpriteOnBoard (spr : Sprite) (offsetX offsetY : Int)
    (board : Board) : Option Board :=
  drawRows offsetX offsetY 0 spr.pixels board

/-! ## Colour census -/

/-- The read `out[k]` on a `map[color.RGBA]int`, here a list of key/count
entries: the count stored for `k`, if the key is present. -/
def mapLookup : List (RGBA × Int) → RGBA → Option Int
  | [], _ => none
  | (k', v) :: m, k => if k' = k then some v else mapLookup m k

/-- The value of the expression `out[k]`: the zero value when the key is absent. -/
def mapGet (m : List (RGBA × Int)) (k : RGBA) : Int :=
  (mapLookup m k).getD 0

/-- The assignment `out[k] = v`: replaces the entry of `k` or adds one. -/
def mapSet : List (RGBA × Int) → RGBA → Int → List (RGBA × Int)
  | [], k, v => [(k, v)]
  | (k', v') :: m, k, v => if k' = k then (k', v) :: m else (k', v') :: mapSet m k v

/-- The statement `out[x]++`. -/
def mapIncr (out : List (RGBA × Int)) (x : RGBA) : List (RGBA × Int) :=
  mapSet out x (mapGet out x + 1)

/-- The method `Sprite.GetColors`. -/
def Sprite.GetColors (spr : Sprite) : List (RGBA × Int) :=
  spr.pixels.foldl (fun out y => y.foldl (fun out x => mapIncr out x) out) []

/-! ## VoxelSprite -/

/-- The method `VoxelSprite.Generate`: `Size[2]` planes of `Size[1]` rows of `Size[0]`
cells. -/
def VoxelSprite.Generate (spr : VoxelSprite) (initColor : RGBA) : VoxelSprite :=
  { spr with
    pixels := (rangeInt spr.Size.2.2).foldl
      (fun pixels _ =>
        pixels ++ [(rangeInt spr.Size.2.1).foldl
          (fun o _ =>
            o ++ [(rangeInt spr.Size.1).foldl (fun o2 _ => o2 ++ [initColor]) []])
          []])
      [] }

/-- The method `VoxelSprite.GetVoxel`.  The third test reads `len(spr.pixels[y])`:
it indexes the slice of planes at `y`. -/
def VoxelSprite.GetVoxel (spr : VoxelSprite) (x y z : Int) : Option (RGBA × Bool) :=
  if z < (spr.pixels.length : Int) then
    match index? spr.pixels z with
    | none => none
    | some plane =>
      if y < (plane.length : Int) then
        match index? spr.pixels y with
        | none => none
        | some planeY =>
          if x < (planeY.length : Int) then
            match index? plane y with
            | none => none
            | some row =>
              match index? row x with
              | none => none
              | some col => some (col, true)
          else some (⟨0, 0, 0, 0⟩, false)
      else some (⟨0, 0, 0, 0⟩, false)
  else some (⟨0, 0, 0, 0⟩, false)

/-- The method `VoxelSprite.SetVoxel`, with the same third test as `GetVoxel`. -/
def VoxelSprite.SetVoxel (spr : VoxelSprite) (x y z : Int) (color : RGBA) :
    Option (VoxelSprite × Bool) :=
  if z < (spr.pixels.length : Int) then
    match index? spr.pixels z with
    | none => none
    | some plane =>
      if y < (plane.length : Int) then
        match index? spr.pixels y with
        | none => none
        | some planeY =>
          if x < (planeY.length : Int) then
            match index? plane y with
            | none => none
            | some row =>
              match assign? row x color with
              | none => none
              | some row' =>
                some ({ spr with
                  pixels := spr.pixels.set z.toNat (plane.set y.toNat row') }, true)
          else some (spr, false)
      else some (spr, false)
  else some (spr, false)

/-- The method `VoxelSprite.GetColors`. -/
def VoxelSprite.GetColors (spr : VoxelSprite) : List (RGBA × Int) :=
  spr.pixels.foldl
    (fun out z => z.foldl (fun out y => y.foldl (fun out x => mapIncr out x) out) out) []

/-! ## Generation from colour samples -/

/-- A non-nil `color.Color` value, represented by the four `uint32` results
`r, g, b, a` of its `RGBA()` method. -/
structure Color where
  r : Nat
  g : Nat
  b : Nat
  a : Nat
  deriving DecidableEq, Repr

/-- The conversion `uint8(v)` of an unsigned value: its low eight bits. -/
def uint8 (v : Nat) : Fin 256 :=
  ⟨v % 256, Nat.mod_lt v (by decide)⟩

/-- The colour assembled from a sample whose alpha is not zero: `col.A = uint8(a)`,
`col.R = uint8(r / a)`, `col.G = uint8(g / a)`, `col.B = uint8(b / a)`. -/
def storedColor (x : Color) : RGBA :=
  ⟨uint8 (x.r / x.a), uint8 (x.g / x.a), uint8 (x.b / x.a), uint8 x.a⟩

/-- The body of the inner loops of `GenerateFromSprite` and `GenerateFromImage`
for one sample; the integer divisions panic (`none`) when `a` is zero. -/
def convertSample (x : Color) : Option RGBA :=
  if x.a = 0 then none else some (storedColor x)

/-- Inner loop of `GenerateFromSprite`, `for ix, x := range y`. -/
def fromSpriteRow (size0 : Int) : Nat → List Color → List RGBA → Option (List RGBA)
  | _, [], o => some o
  | ix, x :: rest, o =>
    if (ix : Int) > wrapInt (size0 - 1) then
      fromSpriteRow size0 (ix + 1) rest o
    else
      match convertSample x with
      | none => none
      | some col => fromSpriteRow size0 (ix + 1) rest (o ++ [col])

/-- Outer loop of `GenerateFromSprite`, `for iy, y := range sprite`. -/
def fromSpriteRows (size : Int × Int) :
    Nat → List (List Color) → List (List RGBA) → Option (List (List RGBA))
  | _, [], pixels => some pixels
  | iy, y :: rest, pixels =>
    if (iy : Int) > wrapInt (size.2 - 1) then
      fromSpriteRows size (iy + 1) rest pixels
    else
      match fromSpriteRow size.1 0 y [] with
      | none => none
      | some o => fromSpriteRows size (iy + 1) rest (pixels ++ [o])

/-- The method `Sprite.GenerateFromSprite`: the sprite after the call, or `none`
when the call panics.  With `overwriteOwnSize` the new `Size` reads
`len(sprite[0])`, which indexes the source grid at `0`. -/
def Sprite.GenerateFromSprite (spr : Sprite) (sprite : List (List Color))
    (overwriteOwnSize : Bool) : Option Sprite :=
  if overwriteOwnSize then
    match index? sprite 0 with
    | none => none
    | some row0 =>
      match fromSpriteRows ((row0.length : Int), (sprite.length : Int)) 0 sprite [] with
      | none => none
      | some pixels => some ⟨((row0.length : Int), (sprite.length : Int)), pixels⟩
  else
    match fromSpriteRows spr.Size 0 sprite [] with
    | none => none
    | some pixels => some ⟨spr.Size, pixels⟩

/-- An `image.Image` as far as `GenerateFromImage` uses it: the corner
`Bounds().Max` and the sample query `At(x, y)`. -/
structure Image where
  Max : Int × Int
  At : Int → Int → Color

/-- Inner loop of `GenerateFromImage`, `for x := range imgXY[0]`, over the
remaining column indices. -/
def fromImageRow (img : Image) (size0 : Int) (y : Nat) :
    List Nat → List RGBA → Option (List RGBA)
  | [], o => some o
  | x :: rest, o =>
    if (x : Int) > wrapInt (size0 - 1) then
      fromImageRow img size0 y rest o
    else
      match convertSample (img.At (x : Int) (y : Int)) with
      | none => none
      | some col => fromImageRow img size0 y rest (o ++ [col])

/-- Outer loop of `GenerateFromImage`, `for y := range imgXY[1]`, over the
remaining row indices. -/
def fromImageRows (img : Image) (size : Int × Int) :
    List Nat → List (List RGBA) → Option (List (List RGBA))
  | [], pixels => some pixels
  | y :: rest, pixels =>
    if (y : Int) > wrapInt (size.2 - 1) then
      fromImageRows img size rest pixels
    else
      match fromImageRow img size.1 y (rangeInt img.Max.1) [] with
      | none => none
      | some o => fromImageRows img size rest (pixels ++ [o])

/-- The method `Sprite.GenerateFromImage`: the sprite after the call, or `none`
when the call panics. -/
def Sprite.GenerateFromImage (spr : Sprite) (img : Image) (overwriteOwnSize : Bool) :
    Option Sprite :=
  if overwriteOwnSize then
    match fromImageRows img img.Max (rangeInt img.Max.2) [] with
    | none => none
    | some pixels => some ⟨img.Max, pixels⟩
  else
    match fromImageRows img spr.Size (rangeInt img.Max.2) [] with
    | none => none
    | some pixels => some ⟨spr.Size, pixels⟩

/-- The source grid with the samples of an image: row `y`, column `x` holds
`At(x, y)`, for `Max.Y` rows of `Max.X` columns. -/
def imageGrid (img : Image) : List (List Color) :=
  (rangeInt img.Max.2).map
    (fun (y : Nat) => (rangeInt img.Max.1).map (fun (x : Nat) => img.At (x : Int) (y : Int)))

/-- The sample of a source grid at row `r`, column `c`, when it exists. -/
def sampleAt (g : List (List Color)) (r c : Nat) : Option Color :=
  (g[r]?).bind (fun row => row[c]?)

/-! ## Helper lemmas -/

theorem wrapInt_of_inRange (z : Int) (h1 : -9223372036854775808 ≤ z)
    (h2 : z < 9223372036854775808) : wrapInt z = z := by
  unfold wrapInt; omega

theorem index?_of_inRange {α : Type} (s : List α) (i : Nat) :
    index? s (i : Int) = s[i]? := by
  simp [index?]

theorem index?_neg {α : Type} (s : List α) (i : Int) (h : i < 0) : index? s i = none := by
  simp [index?]; omega

theorem foldl_append_const {α β : Type} (l : List β) (acc : List α) (v : α) :
    l.foldl (fun o _ => o ++ [v]) acc = acc ++ List.replicate l.length v := by
  induction l generalizing acc with
  | nil => simp
  | cons b t ih =>
    simp only [List.foldl_cons, ih, List.length_cons, List.replicate_succ]
    simp

theorem Generate_pixels (spr : Sprite) (c : RGBA) :
    (spr.Generate c).pixels
      = List.replicate spr.Size.2.toNat (List.replicate spr.Size.1.toNat c) := by
  simp [Sprite.Generate, rangeInt, foldl_append_const]

theorem GetPixel_replicate_in (sz : Int × Int) (w h : Nat) (c : RGBA) (x y : Nat)
    (hx : x < w) (hy : y < h) :
    Sprite.GetPixel ⟨sz, List.replicate h (List.replicate w c)⟩ x y = some (c, true) := by
  simp [Sprite.GetPixel, index?_of_inRange, List.getElem?_replicate, hx, hy]

theorem GetPixel_replicate_out (sz : Int × Int) (w h : Nat) (c : RGBA) (x y : Nat)
    (hxy : w ≤ x ∨ h ≤ y) :
    Sprite.GetPixel ⟨sz, List.replicate h (List.replicate w c)⟩ x y
      = some (⟨0, 0, 0, 0⟩, false) := by
  by_cases hy : y < h
  · have hx : ¬ x < w := by omega
    simp [Sprite.GetPixel, index?_of_inRange, List.getElem?_replicate, hx, hy]
  · simp [Sprite.GetPixel, hy]

theorem cellAt_cons_zero (y : List RGBA) (rest : List (List RGBA)) (c : Nat) :
    cellAt (y :: rest) 0 c = y[c]? := by
  simp [cellAt]

theorem cellAt_cons_succ (y : List RGBA) (rest : List (List RGBA)) (r c : Nat) :
    cellAt (y :: rest) (r + 1) c = cellAt rest r c := by
  simp [cellAt]

theorem cellAt_nil (r c : Nat) : cellAt [] r c = none := by
  simp [cellAt]

theorem cellAt_set (b : List (List RGBA)) (R : Nat) (brow : List RGBA) (r c : Nat)
    (hR : R < b.length) :
    cellAt (b.set R brow) r c = if R = r then brow[c]? else cellAt b r c := by
  unfold cellAt
  rw [List.getElem?_set]
  by_cases h : R = r
  · subst h
    rw [if_pos rfl, if_pos hR, if_pos rfl]; rfl
  · rw [if_neg h, if_neg h]

theorem getElem?_some_of_lt {α : Type} (l : List α) (i : Nat) (h : i < l.length) :
    ∃ a, l[i]? = some a :=
  ⟨l[i], List.getElem?_eq_getElem h⟩

theorem lt_of_getElem?_some {α : Type} (l : List α) (i : Nat) (a : α) (h : l[i]? = some a) :
    i < l.length := by
  rcases Nat.lt_or_ge i l.length with h1 | h1
  · exact h1
  · rw [List.getElem?_eq_none h1] at h; cases h

theorem cellAt_some_row (g : List (List RGBA)) (r c : Nat) (col : RGBA)
    (h : cellAt g r c = some col) : ∃ row, g[r]? = some row ∧ row[c]? = some col := by
  unfold cellAt at h
  cases hrow : g[r]? with
  | none => rw [hrow] at h; cases h
  | some row =>
    rw [hrow] at h
    exact ⟨row, rfl, h⟩

theorem cellAt_isSome_row (g : List (List RGBA)) (r c : Nat)
    (h : (cellAt g r c).isSome = true) : ∃ row, g[r]? = some row ∧ c < row.length := by
  cases hc : cellAt g r c with
  | none => rw [hc] at h; cases h
  | some col =>
    obtain ⟨row, hrow, hcol⟩ := cellAt_some_row g r c col hc
    exact ⟨row, hrow, lt_of_getElem?_some row c col hcol⟩

theorem drawRow_spec (ox R : Nat) (hdrs : List RowSlice) (hdr : RowSlice)
    (hR : hdrs[R]? = some hdr) (hL : hdr.len < 9223372036854775808) (row : List RGBA) :
    ∀ (ix : Nat) (mem : List RGBA),
      ix + row.length + ox ≤ hdr.len → hdr.ptr + hdr.len ≤ mem.length →
      ∃ mem', drawRow (ox : Int) (R : Int) ix row ⟨hdrs, mem⟩ = some ⟨hdrs, mem'⟩ ∧
        mem'.length = mem.length ∧
        ∀ a, mem'[a]? =
          if hdr.ptr + (ix + ox) ≤ a ∧ a < hdr.ptr + (ix + ox) + row.length
          then row[a - (hdr.ptr + (ix + ox))]? else mem[a]? := by
  induction row with
  | nil =>
    intro ix mem _ _
    refine ⟨mem, rfl, rfl, ?_⟩
    intro a
    rw [if_neg (by simp only [List.length_nil]; omega)]
  | cons x rest ih =>
    intro ix mem hfit hmem
    simp only [List.length_cons] at hfit
    have hw : wrapInt ((ix : Int) + (ox : Int)) = ((ix + ox : Nat) : Int) := by
      rw [wrapInt_of_inRange] <;> push_cast <;> omega
    have hnot : ¬ ((hdr.len : Int) < ((ix + ox : Nat) : Int)) := by omega
    have hin : ((ix + ox : Nat) : Int) < (hdr.len : Int) := by omega
    have has : assignCell? ⟨hdrs, mem⟩ hdr ((ix + ox : Nat) : Int) x
        = some ⟨hdrs, mem.set (hdr.ptr + (ix + ox)) x⟩ := by
      unfold assignCell?
      rw [if_pos ⟨Int.ofNat_zero_le _, hin⟩, Int.toNat_ofNat]
    obtain ⟨mem', hrun, hl, hc⟩ := ih (ix + 1) (mem.set (hdr.ptr + (ix + ox)) x)
      (by omega) (by rw [List.length_set]; exact hmem)
    refine ⟨mem', ?_, ?_, ?_⟩
    · unfold drawRow
      simp only
      rw [index?_of_inRange, hR, hw]
      simp only [gt_iff_lt]
      rw [if_neg hnot, has]
      exact hrun
    · rw [hl, List.length_set]
    · intro a
      rw [hc a, List.getElem?_set]
      have hp : hdr.ptr + (ix + ox) < mem.length := by omega
      by_cases h1 : a = hdr.ptr + (ix + ox)
      · subst h1
        have h3 : ¬ (hdr.ptr + (ix + 1 + ox) ≤ hdr.ptr + (ix + ox) ∧
            hdr.ptr + (ix + ox) < hdr.ptr + (ix + 1 + ox) + rest.length) := by omega
        have h4 : hdr.ptr + (ix + ox) ≤ hdr.ptr + (ix + ox) ∧
            hdr.ptr + (ix + ox) < hdr.ptr + (ix + ox) + (x :: rest).length := by
          simp only [List.length_cons]; omega
        rw [if_neg h3, if_pos rfl, if_pos hp, if_pos h4, Nat.sub_self, List.getElem?_cons_zero]
      · have h6 : ¬ (hdr.ptr + (ix + ox) = a) := fun h => h1 h.symm
        by_cases h2 : hdr.ptr + (ix + ox) + 1 ≤ a ∧ a < hdr.ptr + (ix + ox) + 1 + rest.length
        · have h3 : hdr.ptr + (ix + 1 + ox) ≤ a ∧
              a < hdr.ptr + (ix + 1 + ox) + rest.length := by omega
          have h4 : hdr.ptr + (ix + ox) ≤ a ∧
              a < hdr.ptr + (ix + ox) + (x :: rest).length := by
            simp only [List.length_cons]; omega
          have h5 : a - (hdr.ptr + (ix + ox)) = (a - (hdr.ptr + (ix + 1 + ox))) + 1 := by
            omega
          rw [if_pos h3, if_pos h4, h5, List.getElem?_cons_succ]
        · have h3 : ¬ (hdr.ptr + (ix + 1 + ox) ≤ a ∧
              a < hdr.ptr + (ix + 1 + ox) + rest.length) := by omega
          have h4 : ¬ (hdr.ptr + (ix + ox) ≤ a ∧
              a < hdr.ptr + (ix + ox) + (x :: rest).length) := by
            simp only [List.length_cons]; omega
          rw [if_neg h3, if_neg h4, if_neg h6]

theorem drawRows_spec (ox oy W : Nat) (hW : W < 9223372036854775808)
    (hdrs : List RowSlice) (hlen : hdrs.length < 9223372036854775808)
    (hrect : ∀ hdr ∈ hdrs, hdr.len = W)
    (hsep : ∀ (i j : Nat) (hi hj : RowSlice), i ≠ j → hdrs[i]? = some hi →
      hdrs[j]? = some hj → hi.ptr + hi.len ≤ hj.ptr ∨ hj.ptr + hj.len ≤ hi.ptr)
    (rows : List (List RGBA)) :
    ∀ (iy : Nat) (mem : List RGBA),
      (∀ hdr ∈ hdrs, hdr.ptr + hdr.len ≤ mem.length) →
      iy + rows.length + oy ≤ hdrs.length →
      (∀ row ∈ rows, ox + row.length ≤ W) →
      ∃ mem', drawRows (ox : Int) (oy : Int) iy rows ⟨hdrs, mem⟩ = some ⟨hdrs, mem'⟩ ∧
        mem'.length = mem.length ∧
        (∀ (r c : Nat) (col : RGBA) (hdr : RowSlice), cellAt rows r c = some col →
          hdrs[iy + oy + r]? = some hdr → mem'[hdr.ptr + (ox + c)]? = some col) ∧
        (∀ a : Nat,
          (∀ (r c : Nat) (hdr : RowSlice), (cellAt rows r c).isSome = true →
            hdrs[iy + oy + r]? = some hdr → a ≠ hdr.ptr + (ox + c)) →
          mem'[a]? = mem[a]?) := by
  induction rows with
  | nil =>
    intro iy mem _ _ _
    refine ⟨mem, rfl, rfl, ?_, fun a _ => rfl⟩
    intro r c col hdr hcell
    rw [cellAt_nil] at hcell
    cases hcell
  | cons y rest ih =>
    intro iy mem hmem hfit hrows
    simp only [List.length_cons] at hfit
    have hR : iy + oy < hdrs.length := by omega
    obtain ⟨hdr0, hhdr0⟩ := getElem?_some_of_lt hdrs (iy + oy) hR
    have hl0 : hdr0.len = W := hrect hdr0 (List.getElem?_mem hhdr0)
    have hy : ox + y.length ≤ W := hrows y (List.mem_cons_self _ _)
    have hw : wrapInt ((iy : Int) + (oy : Int)) = ((iy + oy : Nat) : Int) := by
      rw [wrapInt_of_inRange] <;> push_cast <;> omega
    obtain ⟨mem1, hrun1, hlen1, hc1⟩ := drawRow_spec ox (iy + oy) hdrs hdr0 hhdr0
      (by omega) y 0 mem (by omega) (hmem hdr0 (List.getElem?_mem hhdr0))
    obtain ⟨mem', hrun2, hlen2, hP1, hP2⟩ := ih (iy + 1) mem1
      (fun hdr hh => by rw [hlen1]; exact hmem hdr hh) (by omega)
      (fun row hrow => hrows row (List.mem_cons_of_mem _ hrow))
    -- a cell of a later sprite row never has the address of a cell of row `iy + oy`
    have hother : ∀ (c r' c' : Nat) (hdr' : RowSlice), c < y.length →
        (cellAt rest r' c').isSome = true → hdrs[iy + 1 + oy + r']? = some hdr' →
        hdr0.ptr + (ox + c) ≠ hdr'.ptr + (ox + c') := by
      intro c r' c' hdr' hc hsome hh'
      obtain ⟨row', hrow', hc'⟩ := cellAt_isSome_row rest r' c' hsome
      have hrw : ox + row'.length ≤ W :=
        hrows row' (List.mem_cons_of_mem _ (List.getElem?_mem hrow'))
      have hl' : hdr'.len = W := hrect hdr' (List.getElem?_mem hh')
      have := hsep (iy + oy) (iy + 1 + oy + r') hdr0 hdr' (by omega) hhdr0 hh'
      omega
    refine ⟨mem', ?_, by rw [hlen2, hlen1], ?_, ?_⟩
    · have hnot : ¬ ((hdrs.length : Int) < ((iy + oy : Nat) : Int)) := by omega
      unfold drawRows
      simp only
      rw [hw]
      simp only [gt_iff_lt]
      rw [if_neg hnot, hrun1]
      exact hrun2
    · intro r c col hdr hcell hh
      cases r with
      | zero =>
        rw [cellAt_cons_zero] at hcell
        have hcl : c < y.length := lt_of_getElem?_some y c col hcell
        have he : hdr = hdr0 := by
          rw [Nat.add_zero, hhdr0] at hh
          exact (Option.some.inj hh).symm
        subst he
        rw [hP2 (hdr.ptr + (ox + c)) (fun r' c' hdr' hsome hh' =>
          hother c r' c' hdr' hcl hsome hh'), hc1 (hdr.ptr + (ox + c)),
          if_pos ⟨by omega, by omega⟩]
        have e : hdr.ptr + (ox + c) - (hdr.ptr + (0 + ox)) = c := by omega
        rw [e, hcell]
      | succ r' =>
        rw [cellAt_cons_succ] at hcell
        have e : iy + oy + (r' + 1) = iy + 1 + oy + r' := by omega
        rw [e] at hh
        exact hP1 r' c col hdr hcell hh
    · intro a hav
      rw [hP2 a (fun r' c' hdr' hsome hh' => by
        have e : iy + oy + (r' + 1) = iy + 1 + oy + r' := by omega
        exact hav (r' + 1) c' hdr' (by rw [cellAt_cons_succ]; exact hsome)
          (by rw [e]; exact hh')), hc1 a]
      apply if_neg
      rintro ⟨h1, h2⟩
      have hcl : a - (hdr0.ptr + (0 + ox)) < y.length := by omega
      have hsome : (cellAt (y :: rest) 0 (a - (hdr0.ptr + (0 + ox)))).isSome = true := by
        rw [cellAt_cons_zero, List.getElem?_eq_getElem hcl]; rfl
      exact hav 0 (a - (hdr0.ptr + (0 + ox))) hdr0 hsome (by rw [Nat.add_zero]; exact hhdr0)
        (by omega)

theorem utf8Size_of_ascii (ch : Char) (h : ch.val < 128) : ch.utf8Size = 1 := by
  have h1 : ch.val ≤ 127 := by
    have : ch.val.toNat < 128 := h
    show ch.val.toNat ≤ 127
    omega
  simp [Char.utf8Size, h1]

theorem genRow_ascii (w : Nat) (hw : w < 9223372036854775808) (mode : Int) :
    ∀ (cs : List Char) (i2 : Nat) (o : List RGBA), (∀ ch ∈ cs, ch.val < 128) →
      genRow (w : Int) mode i2 cs o = o ++ (cs.take (w - i2)).map (decodeChar mode) := by
  have hwrap : wrapInt ((w : Int) - 1) = (w : Int) - 1 := by
    rw [wrapInt_of_inRange] <;> omega
  intro cs
  induction cs with
  | nil => intro i2 o _; simp [genRow]
  | cons ch rest ih =>
    intro i2 o hascii
    have h1 : ch.utf8Size = 1 := utf8Size_of_ascii ch (hascii ch (List.mem_cons_self _ _))
    have hrest : ∀ c ∈ rest, c.val < 128 := fun c hc => hascii c (List.mem_cons_of_mem _ hc)
    unfold genRow
    rw [hwrap, h1]
    by_cases hskip : (i2 : Int) > (w : Int) - 1
    · rw [if_pos hskip, ih (i2 + 1) o hrest]
      have e1 : w - (i2 + 1) = 0 := by omega
      have e2 : w - i2 = 0 := by omega
      rw [e1, e2]; rfl
    · rw [if_neg hskip, ih (i2 + 1) (o ++ [decodeChar mode ch]) hrest]
      have e2 : w - i2 = (w - (i2 + 1)) + 1 := by omega
      rw [e2, List.take_succ_cons, List.map_cons, List.append_assoc]; rfl

theorem genRows_spec (w h : Int) (hh0 : 0 ≤ h) (hh : h < 9223372036854775808) (mode : Int) :
    ∀ (ls : List (List Char)) (i1 : Nat) (pixels : List (List RGBA)),
      genRows (w, h) mode i1 ls pixels
        = pixels ++ (ls.take (h.toNat - i1)).map (fun l => genRow w mode 0 l []) := by
  have hwrap : wrapInt (h - 1) = h - 1 := by
    rw [wrapInt_of_inRange] <;> omega
  intro ls
  induction ls with
  | nil => intro i1 pixels; simp [genRows]
  | cons l rest ih =>
    intro i1 pixels
    unfold genRows
    simp only
    rw [hwrap]
    by_cases hskip : (i1 : Int) > h - 1
    · rw [if_pos hskip, ih (i1 + 1) pixels]
      have e1 : h.toNat - (i1 + 1) = 0 := by omega
      have e2 : h.toNat - i1 = 0 := by omega
      rw [e1, e2]; rfl
    · rw [if_neg hskip, ih (i1 + 1) _]
      have e2 : h.toNat - i1 = (h.toNat - (i1 + 1)) + 1 := by omega
      rw [e2, List.take_succ_cons, List.map_cons, List.append_assoc]; rfl

theorem mem_of_mem_splitNewline :
    ∀ (cs : List Char) (l : List Char), l ∈ splitNewline cs → ∀ ch ∈ l, ch ∈ cs := by
  intro cs
  induction cs with
  | nil =>
    intro l hl ch hch
    simp only [splitNewline, List.mem_singleton] at hl
    subst hl; cases hch
  | cons c rest ih =>
    intro l hl ch hch
    unfold splitNewline at hl
    by_cases hc : c = '\n'
    · rw [if_pos hc] at hl
      rcases List.mem_cons.mp hl with h | h
      · subst h; cases hch
      · exact List.mem_cons_of_mem _ (ih l h ch hch)
    · rw [if_neg hc] at hl
      cases hs : splitNewline rest with
      | nil =>
        rw [hs] at hl
        simp only [List.mem_singleton] at hl
        subst hl
        rcases List.mem_cons.mp hch with h2 | h2
        · subst h2; exact List.mem_cons_self _ _
        · cases h2
      | cons l0 ls =>
        rw [hs] at hl ih
        rcases List.mem_cons.mp hl with h | h
        · subst h
          rcases List.mem_cons.mp hch with h2 | h2
          · subst h2; exact List.mem_cons_self _ _
          · exact List.mem_cons_of_mem _ (ih l0 (List.mem_cons_self _ _) ch h2)
        · exact List.mem_cons_of_mem _ (ih l (List.mem_cons_of_mem _ h) ch hch)

theorem mapLookup_mapSet (m : List (RGBA × Int)) (k : RGBA) (v : Int) (c : RGBA) :
    mapLookup (mapSet m k v) c = if k = c then some v else mapLookup m c := by
  induction m with
  | nil =>
    simp only [mapSet, mapLookup]
  | cons e m ih =>
    obtain ⟨k', v'⟩ := e
    unfold mapSet
    by_cases h : k' = k
    · subst h
      rw [if_pos rfl]
      by_cases hc : k' = c
      · simp only [mapLookup, if_pos hc]
      · simp only [mapLookup, if_neg hc]
    · rw [if_neg h]
      by_cases hc : k' = c
      · have hkc : ¬ k = c := fun e => h (hc.trans e.symm)
        simp only [mapLookup, if_pos hc, if_neg hkc]
      · simp only [mapLookup, if_neg hc, ih]

theorem sum_mapSet (m : List (RGBA × Int)) (k : RGBA) (v : Int) :
    ((mapSet m k v).map Prod.snd).sum = (m.map Prod.snd).sum - mapGet m k + v := by
  induction m with
  | nil => simp [mapSet, mapGet, mapLookup]
  | cons e m ih =>
    obtain ⟨k', v'⟩ := e
    unfold mapSet
    by_cases h : k' = k
    · rw [if_pos h]
      simp only [mapGet, mapLookup, if_pos h, List.map_cons, List.sum_cons, Option.getD_some]
      omega
    · rw [if_neg h]
      simp only [mapGet, mapLookup, if_neg h, List.map_cons, List.sum_cons] at ih ⊢
      rw [ih]; omega

theorem keys_mapSet (m : List (RGBA × Int)) (k : RGBA) (v : Int) :
    (mapSet m k v).map Prod.fst
      = if k ∈ m.map Prod.fst then m.map Prod.fst else m.map Prod.fst ++ [k] := by
  induction m with
  | nil => simp [mapSet]
  | cons e m ih =>
    obtain ⟨k', v'⟩ := e
    unfold mapSet
    by_cases h : k' = k
    · subst h
      simp
    · rw [if_neg h]
      have hk : ¬ k = k' := fun e => h e.symm
      simp only [List.map_cons, List.mem_cons, hk, false_or, ih]
      split <;> simp

theorem nodup_keys_mapSet (m : List (RGBA × Int)) (k : RGBA) (v : Int)
    (h : (m.map Prod.fst).Nodup) : ((mapSet m k v).map Prod.fst).Nodup := by
  rw [keys_mapSet]
  split
  · exact h
  · rename_i hk
    exact List.nodup_append.mpr ⟨h, List.nodup_singleton k, by
      intro a ha hb
      rw [List.mem_singleton] at hb
      subst hb
      exact hk ha⟩

theorem foldl_mapIncr_spec (c : RGBA) :
    ∀ (l : List RGBA) (m : List (RGBA × Int)),
      mapLookup (l.foldl (fun out x => mapIncr out x) m) c
          = (if c ∈ l then some (mapGet m c + (l.count c : Int)) else mapLookup m c) ∧
      ((l.foldl (fun out x => mapIncr out x) m).map Prod.snd).sum
          = (m.map Prod.snd).sum + (l.length : Int) ∧
      ((m.map Prod.fst).Nodup →
        ((l.foldl (fun out x => mapIncr out x) m).map Prod.fst).Nodup) := by
  intro l
  induction l with
  | nil => intro m; simp
  | cons x t ih =>
    intro m
    obtain ⟨h1, h2, h3⟩ := ih (mapIncr m x)
    simp only [List.foldl_cons]
    refine ⟨?_, ?_, ?_⟩
    · rw [h1]
      by_cases hxc : x = c
      · subst hxc
        have hg : mapGet (mapIncr m x) x = mapGet m x + 1 := by
          simp [mapGet, mapIncr, mapLookup_mapSet]
        have hl : mapLookup (mapIncr m x) x = some (mapGet m x + 1) := by
          simp [mapIncr, mapLookup_mapSet]
        rw [hg, hl, List.count_cons_self, if_pos (List.mem_cons_self _ _)]
        by_cases ht : x ∈ t
        · rw [if_pos ht]; push_cast; congr 1; omega
        · rw [if_neg ht, List.count_eq_zero_of_not_mem ht]; simp
      · have hg : mapGet (mapIncr m x) c = mapGet m c := by
          simp [mapGet, mapIncr, mapLookup_mapSet, hxc]
        have hl : mapLookup (mapIncr m x) c = mapLookup m c := by
          simp [mapIncr, mapLookup_mapSet, hxc]
        have hcx : c ≠ x := fun e => hxc e.symm
        rw [hg, hl, List.count_cons_of_ne hcx]
        by_cases ht : c ∈ t
        · rw [if_pos ht, if_pos (List.mem_cons_of_mem _ ht)]
        · rw [if_neg ht, if_neg (by simp [hcx, ht])]
    · rw [h2]
      unfold mapIncr
      rw [sum_mapSet]
      simp only [List.length_cons]
      push_cast; omega
    · intro hn
      exact h3 (nodup_keys_mapSet m x _ hn)

theorem foldl_rows_eq_foldl_flatten (rows : List (List RGBA)) :
    ∀ m : List (RGBA × Int),
      rows.foldl (fun out y => y.foldl (fun out x => mapIncr out x) out) m
        = (rows.flatten).foldl (fun out x => mapIncr out x) m := by
  induction rows with
  | nil => intro m; rfl
  | cons y rest ih =>
    intro m
    simp only [List.foldl_cons, List.flatten_cons, List.foldl_append]
    exact ih _

theorem isSome_mapLookup (m : List (RGBA × Int)) (c : RGBA) :
    (mapLookup m c).isSome = (m.map Prod.fst).contains c := by
  induction m with
  | nil => rfl
  | cons e m ih =>
    obtain ⟨k', v'⟩ := e
    by_cases h : k' = c
    · subst h; simp [mapLookup]
    · have h' : ¬ c = k' := fun e => h e.symm
      simp only [mapLookup, if_neg h, ih, List.map_cons, List.contains_cons]
      simp [h']

theorem GetColors_get (spr : Sprite) (c : RGBA) :
    mapGet spr.GetColors c = ((spr.pixels.flatten).count c : Int) := by
  obtain ⟨h1, _, _⟩ := foldl_mapIncr_spec c spr.pixels.flatten []
  have hgc : spr.GetColors
      = (spr.pixels.flatten).foldl (fun out x => mapIncr out x) [] :=
    foldl_rows_eq_foldl_flatten spr.pixels []
  rw [hgc]
  unfold mapGet
  rw [h1]
  by_cases hc : c ∈ spr.pixels.flatten
  · rw [if_pos hc]; simp [mapGet, mapLookup]
  · rw [if_neg hc, List.count_eq_zero_of_not_mem hc]; simp [mapLookup]

theorem GetColors_sum (spr : Sprite) :
    (spr.GetColors.map Prod.snd).sum = ((spr.pixels.map List.length).sum : Nat) := by
  obtain ⟨_, h2, _⟩ := foldl_mapIncr_spec ⟨0, 0, 0, 0⟩ spr.pixels.flatten []
  have hgc : spr.GetColors
      = (spr.pixels.flatten).foldl (fun out x => mapIncr out x) [] :=
    foldl_rows_eq_foldl_flatten spr.pixels []
  rw [hgc, h2]
  simp [List.length_flatten]

theorem GetPixel_eq_cellAt (spr : Sprite) (x y : Nat) :
    spr.GetPixel (x : Int) (y : Int)
      = match cellAt spr.pixels y x with
        | some col => some (col, true)
        | none => some (⟨0, 0, 0, 0⟩, false) := by
  unfold Sprite.GetPixel cellAt
  rw [index?_of_inRange]
  by_cases hy : y < spr.pixels.length
  · have hy' : (y : Int) < (spr.pixels.length : Int) := by omega
    rw [if_pos hy', List.getElem?_eq_getElem hy]
    simp only [Option.some_bind]
    rw [index?_of_inRange]
    by_cases hx : x < (spr.pixels[y]).length
    · have hx' : (x : Int) < ((spr.pixels[y]).length : Int) := by omega
      rw [if_pos hx', List.getElem?_eq_getElem hx]
    · have hx' : ¬ (x : Int) < ((spr.pixels[y]).length : Int) := by omega
      rw [if_neg hx', List.getElem?_eq_none (by omega)]
  · have hy' : ¬ (y : Int) < (spr.pixels.length : Int) := by omega
    rw [if_neg hy', List.getElem?_eq_none (by omega)]
    rfl

theorem SetPixel_in (spr : Sprite) (x y : Nat) (c : RGBA) (row : List RGBA)
    (hrow : spr.pixels[y]? = some row) (hx : x < row.length) :
    spr.SetPixel (x : Int) (y : Int) c
      = some ({ spr with pixels := spr.pixels.set y (row.set x c) }, true) := by
  have hylt : y < spr.pixels.length := lt_of_getElem?_some _ _ _ hrow
  have hy' : (y : Int) < (spr.pixels.length : Int) := by omega
  have hx' : (x : Int) < (row.length : Int) := by omega
  unfold Sprite.SetPixel
  rw [if_pos hy', index?_of_inRange, hrow]
  simp only
  rw [if_pos hx']
  unfold assign?
  rw [if_pos ⟨Int.ofNat_zero_le _, hx'⟩]
  simp only [Int.toNat_ofNat]

theorem SetPixel_out (spr : Sprite) (x y : Nat) (c : RGBA)
    (hout : cellAt spr.pixels y x = none) :
    spr.SetPixel (x : Int) (y : Int) c = some (spr, false) := by
  unfold Sprite.SetPixel
  rw [index?_of_inRange]
  by_cases hy : y < spr.pixels.length
  · have hy' : (y : Int) < (spr.pixels.length : Int) := by omega
    rw [if_pos hy', List.getElem?_eq_getElem hy]
    simp only
    have hx : ¬ x < (spr.pixels[y]).length := by
      intro hx
      unfold cellAt at hout
      rw [List.getElem?_eq_getElem hy] at hout
      simp only [Option.some_bind] at hout
      rw [List.getElem?_eq_getElem hx] at hout
      cases hout
    have hx' : ¬ (x : Int) < ((spr.pixels[y]).length : Int) := by omega
    rw [if_neg hx']
  · have hy' : ¬ (y : Int) < (spr.pixels.length : Int) := by omega
    rw [if_neg hy']

theorem count_cons_ite (k a : RGBA) (t : List RGBA) :
    (a :: t).count k = t.count k + (if k = a then 1 else 0) := by
  by_cases h : k = a
  · subst h; rw [List.count_cons_self, if_pos rfl]
  · rw [List.count_cons_of_ne h, if_neg h]; rfl

theorem count_set_add (k c old : RGBA) :
    ∀ (l : List RGBA) (i : Nat), l[i]? = some old →
      (l.set i c).count k + (if k = old then 1 else 0)
        = l.count k + (if k = c then 1 else 0) := by
  intro l
  induction l with
  | nil => intro i h; simp at h
  | cons a t ih =>
    intro i h
    cases i with
    | zero =>
      simp only [List.getElem?_cons_zero, Option.some.injEq] at h
      subst h
      rw [List.set_cons_zero, count_cons_ite, count_cons_ite]
      omega
    | succ j =>
      simp only [List.getElem?_cons_succ] at h
      have := ih j h
      rw [List.set_cons_succ, count_cons_ite, count_cons_ite]
      omega

theorem count_flatten_set_add (k c old : RGBA) (x : Nat) :
    ∀ (g : List (List RGBA)) (y : Nat) (row : List RGBA),
      g[y]? = some row → row[x]? = some old →
      ((g.set y (row.set x c)).flatten).count k + (if k = old then 1 else 0)
        = (g.flatten).count k + (if k = c then 1 else 0) := by
  intro g
  induction g with
  | nil => intro y row h; simp at h
  | cons a t ih =>
    intro y row h hold
    cases y with
    | zero =>
      simp only [List.getElem?_cons_zero, Option.some.injEq] at h
      subst h
      have := count_set_add k c old a x hold
      simp only [List.set_cons_zero, List.flatten_cons, List.count_append]
      omega
    | succ j =>
      simp only [List.getElem?_cons_succ] at h
      have := ih j row h hold
      simp only [List.set_cons_succ, List.flatten_cons, List.count_append]
      omega

theorem VoxelGenerate_pixels (spr : VoxelSprite) (c : RGBA) :
    (spr.Generate c).pixels
      = List.replicate spr.Size.2.2.toNat
          (List.replicate spr.Size.2.1.toNat (List.replicate spr.Size.1.toNat c)) := by
  simp [VoxelSprite.Generate, rangeInt, foldl_append_const]

theorem flatten_replicate_rows (n m : Nat) (c : RGBA) :
    (List.replicate n (List.replicate m c)).flatten = List.replicate (n * m) c := by
  induction n with
  | zero => simp
  | succ k ih =>
    rw [List.replicate_succ, List.flatten_cons, ih, Nat.succ_mul, Nat.add_comm (k * m) m,
      List.replicate_add]

theorem foldl_planes_eq_foldl_flatten (planes : List (List (List RGBA))) :
    ∀ m : List (RGBA × Int),
      planes.foldl
          (fun out z => z.foldl (fun out y => y.foldl (fun out x => mapIncr out x) out) out) m
        = ((planes.map List.flatten).flatten).foldl (fun out x => mapIncr out x) m := by
  induction planes with
  | nil => intro m; rfl
  | cons z rest ih =>
    intro m
    simp only [List.foldl_cons, List.map_cons, List.flatten_cons, List.foldl_append]
    rw [foldl_rows_eq_foldl_flatten z m]
    exact ih _

theorem foldl_mapIncr_replicate_cons (c : RGBA) :
    ∀ (n : Nat) (k : Int),
      (List.replicate n c).foldl (fun out x => mapIncr out x) [(c, k)] = [(c, k + (n : Int))] := by
  intro n
  induction n with
  | zero => intro k; simp
  | succ j ih =>
    intro k
    have h1 : mapIncr [(c, k)] c = [(c, k + 1)] := by
      simp [mapIncr, mapSet, mapGet, mapLookup]
    rw [List.replicate_succ, List.foldl_cons, h1, ih (k + 1)]
    congr 2
    push_cast
    omega

theorem foldl_mapIncr_replicate_nil (c : RGBA) (n : Nat) :
    (List.replicate n c).foldl (fun out x => mapIncr out x) []
      = if n = 0 then [] else [(c, (n : Int))] := by
  cases n with
  | zero => simp
  | succ j =>
    have h1 : mapIncr [] c = [(c, 1)] := by
      simp [mapIncr, mapSet, mapGet, mapLookup]
    rw [List.replicate_succ, List.foldl_cons, h1, foldl_mapIncr_replicate_cons c j 1,
      if_neg (Nat.succ_ne_zero j)]
    congr 2
    push_cast
    omega

theorem convertSample_of_ne_zero (x : Color) (h : x.a ≠ 0) :
    convertSample x = some (storedColor x) := by
  unfold convertSample
  rw [if_neg h]

theorem fromSpriteRow_spec (size0 : Int) :
    ∀ (row : List Color) (ix : Nat) (o : List RGBA),
      (∀ (j : Nat) (x : Color), row[j]? = some x →
        ((ix + j : Nat) : Int) ≤ wrapInt (size0 - 1) → x.a ≠ 0) →
      fromSpriteRow size0 ix row o
        = some (o ++ (row.take ((wrapInt (size0 - 1) + 1).toNat - ix)).map storedColor) := by
  intro row
  induction row with
  | nil => intro ix o _; simp [fromSpriteRow]
  | cons x rest ih =>
    intro ix o hnz
    have hrest : ∀ (j : Nat) (x' : Color), rest[j]? = some x' →
        ((ix + 1 + j : Nat) : Int) ≤ wrapInt (size0 - 1) → x'.a ≠ 0 := by
      intro j x' hj hle
      apply hnz (j + 1) x' (by simpa using hj)
      have e : ix + (j + 1) = ix + 1 + j := by omega
      rw [e]; exact hle
    unfold fromSpriteRow
    by_cases hskip : (ix : Int) > wrapInt (size0 - 1)
    · rw [if_pos hskip, ih (ix + 1) o hrest]
      have e1 : (wrapInt (size0 - 1) + 1).toNat - (ix + 1) = 0 := by omega
      have e2 : (wrapInt (size0 - 1) + 1).toNat - ix = 0 := by omega
      rw [e1, e2]; rfl
    · have hx : x.a ≠ 0 :=
        hnz 0 x (List.getElem?_cons_zero) (by simpa using not_lt.mp hskip)
      rw [if_neg hskip, convertSample_of_ne_zero x hx]
      simp only
      rw [ih (ix + 1) (o ++ [storedColor x]) hrest]
      have e2 : (wrapInt (size0 - 1) + 1).toNat - ix
          = ((wrapInt (size0 - 1) + 1).toNat - (ix + 1)) + 1 := by omega
      rw [e2, List.take_succ_cons, List.map_cons, List.append_assoc]; rfl

theorem fromSpriteRows_spec (size : Int × Int) :
    ∀ (grid : List (List Color)) (iy : Nat) (pixels : List (List RGBA)),
      (∀ (i j : Nat) (x : Color), sampleAt grid i j = some x →
        ((iy + i : Nat) : Int) ≤ wrapInt (size.2 - 1) →
        (j : Int) ≤ wrapInt (size.1 - 1) → x.a ≠ 0) →
      fromSpriteRows size iy grid pixels
        = some (pixels ++ (grid.take ((wrapInt (size.2 - 1) + 1).toNat - iy)).map
            (fun row => (row.take (wrapInt (size.1 - 1) + 1).toNat).map storedColor)) := by
  intro grid
  induction grid with
  | nil => intro iy pixels _; simp [fromSpriteRows]
  | cons y rest ih =>
    intro iy pixels hnz
    have hrest : ∀ (i j : Nat) (x : Color), sampleAt rest i j = some x →
        ((iy + 1 + i : Nat) : Int) ≤ wrapInt (size.2 - 1) →
        (j : Int) ≤ wrapInt (size.1 - 1) → x.a ≠ 0 := by
      intro i j x hs h1 h2
      apply hnz (i + 1) j x (by simpa [sampleAt] using hs) _ h2
      have e : iy + (i + 1) = iy + 1 + i := by omega
      rw [e]; exact h1
    unfold fromSpriteRows
    by_cases hskip : (iy : Int) > wrapInt (size.2 - 1)
    · rw [if_pos hskip, ih (iy + 1) pixels hrest]
      have e1 : (wrapInt (size.2 - 1) + 1).toNat - (iy + 1) = 0 := by omega
      have e2 : (wrapInt (size.2 - 1) + 1).toNat - iy = 0 := by omega
      rw [e1, e2]; rfl
    · have hrow := fromSpriteRow_spec size.1 y 0 [] (by
        intro j x hj hle
        apply hnz 0 j x (by simpa [sampleAt] using hj) (by simpa using not_lt.mp hskip)
        simpa using hle)
      rw [if_neg hskip, hrow]
      simp only [List.nil_append, Nat.sub_zero]
      rw [ih (iy + 1) _ hrest]
      have e2 : (wrapInt (size.2 - 1) + 1).toNat - iy
          = ((wrapInt (size.2 - 1) + 1).toNat - (iy + 1)) + 1 := by omega
      rw [e2, List.take_succ_cons, List.map_cons, List.append_assoc]; rfl

theorem cellAt_map_take (g : List (List Color)) (H W : Nat) (iy ix : Nat) :
    cellAt ((g.take H).map (fun row => (row.take W).map storedColor)) iy ix
      = if iy < H ∧ ix < W then (sampleAt g iy ix).map storedColor else none := by
  unfold cellAt sampleAt
  rw [List.getElem?_map, List.getElem?_take]
  by_cases h1 : iy < H
  · rw [if_pos h1]
    cases hrow : g[iy]? with
    | none => simp
    | some row =>
      simp only [Option.map_some', Option.some_bind]
      rw [List.getElem?_map, List.getElem?_take]
      by_cases h2 : ix < W
      · rw [if_pos h2, if_pos ⟨h1, h2⟩]
      · rw [if_neg h2, if_neg (fun h => h2 h.2)]; rfl
  · rw [if_neg h1, if_neg (fun h => h1 h.1)]; rfl

theorem GenerateFromSprite_eq (spr : Sprite) (sprite : List (List Color))
    (overwriteOwnSize : Bool) (w h : Int)
    (heff : (w, h) = if overwriteOwnSize = true
      then (((sprite.headD []).length : Int), (sprite.length : Int)) else spr.Size)
    (hw : -9223372036854775808 < w ∧ w < 9223372036854775808)
    (hh : -9223372036854775808 < h ∧ h < 9223372036854775808)
    (hnz : ∀ (iy ix : Nat) (x : Color), sampleAt sprite iy ix = some x →
      (iy : Int) < h → (ix : Int) < w → x.a ≠ 0)
    (hne : sprite ≠ [] ∨ overwriteOwnSize = false) :
    spr.GenerateFromSprite sprite overwriteOwnSize
      = some ⟨(w, h), (sprite.take h.toNat).map
          (fun row => (row.take w.toNat).map storedColor)⟩ := by
  have hww : wrapInt (w - 1) = w - 1 := by
    rw [wrapInt_of_inRange] <;> omega
  have hwh : wrapInt (h - 1) = h - 1 := by
    rw [wrapInt_of_inRange] <;> omega
  have hrows := fromSpriteRows_spec (w, h) sprite 0 [] (by
    intro i j x hs h1 h2
    simp only at h1 h2
    rw [hwh] at h1
    rw [hww] at h2
    exact hnz i j x hs (by omega) (by omega))
  simp only [hww, hwh, sub_add_cancel, List.nil_append, Nat.sub_zero] at hrows
  unfold Sprite.GenerateFromSprite
  cases overwriteOwnSize with
  | true =>
    rcases hne with hne | hne
    · cases sprite with
      | nil => exact absurd rfl hne
      | cons row0 rest =>
        simp only [if_true, List.headD_cons] at heff
        have hidx : index? (row0 :: rest) 0 = some row0 := by
          simp [index?]
        rw [if_pos rfl, hidx]
        simp only
        rw [← heff, hrows]
    · cases hne
  | false =>
    simp only [Bool.false_eq_true, if_false] at heff
    rw [if_neg (by simp), ← heff, hrows]

theorem sampleAt_mem (g : List (List Color)) (i j : Nat) (x : Color)
    (h : sampleAt g i j = some x) : ∃ row ∈ g, x ∈ row := by
  unfold sampleAt at h
  cases hrow : g[i]? with
  | none => rw [hrow] at h; cases h
  | some row =>
    rw [hrow] at h
    exact ⟨row, List.getElem?_mem hrow, List.getElem?_mem h⟩

theorem GenerateFromSprite_keep_size (spr : Sprite) (sprite : List (List Color))
    (hnz : ∀ row ∈ sprite, ∀ x ∈ row, x.a ≠ 0) :
    ∃ pixels, spr.GenerateFromSprite sprite false = some ⟨spr.Size, pixels⟩ := by
  have hrows := fromSpriteRows_spec spr.Size sprite 0 [] (by
    intro i j x hs _ _
    obtain ⟨row, hrow, hx⟩ := sampleAt_mem sprite i j x hs
    exact hnz row hrow x hx)
  unfold Sprite.GenerateFromSprite
  rw [if_neg (by simp), hrows]
  exact ⟨_, rfl⟩

theorem fromImageRow_eq (img : Image) (size0 : Int) (y : Nat) :
    ∀ (n k : Nat) (o : List RGBA),
      fromImageRow img size0 y (List.range' k n) o
        = fromSpriteRow size0 k
            ((List.range' k n).map (fun (x : Nat) => img.At (x : Int) (y : Int))) o := by
  intro n
  induction n with
  | zero => intro k o; rfl
  | succ m ih =>
    intro k o
    rw [List.range'_succ, List.map_cons]
    unfold fromImageRow fromSpriteRow
    by_cases hskip : (k : Int) > wrapInt (size0 - 1)
    · rw [if_pos hskip, if_pos hskip]
      exact ih (k + 1) o
    · rw [if_neg hskip, if_neg hskip]
      cases convertSample (img.At (k : Int) (y : Int)) with
      | none => rfl
      | some col => exact ih (k + 1) _

theorem fromImageRows_eq (img : Image) (size : Int × Int) :
    ∀ (n k : Nat) (pixels : List (List RGBA)),
      fromImageRows img size (List.range' k n) pixels
        = fromSpriteRows size k
            ((List.range' k n).map
              (fun (y : Nat) => (rangeInt img.Max.1).map (fun (x : Nat) => img.At (x : Int) (y : Int))))
            pixels := by
  intro n
  induction n with
  | zero => intro k pixels; rfl
  | succ m ih =>
    intro k pixels
    rw [List.range'_succ, List.map_cons]
    unfold fromImageRows fromSpriteRows
    by_cases hskip : (k : Int) > wrapInt (size.2 - 1)
    · rw [if_pos hskip, if_pos hskip]
      exact ih (k + 1) pixels
    · rw [if_neg hskip, if_neg hskip]
      have hrow : fromImageRow img size.1 k (rangeInt img.Max.1) []
          = fromSpriteRow size.1 0
              ((rangeInt img.Max.1).map (fun (x : Nat) => img.At (x : Int) (k : Int))) [] := by
        unfold rangeInt
        rw [List.range_eq_range']
        exact fromImageRow_eq img size.1 k _ 0 []
      rw [hrow]
      cases fromSpriteRow size.1 0
          ((rangeInt img.Max.1).map (fun (x : Nat) => img.At (x : Int) (k : Int))) [] with
      | none => rfl
      | some o => exact ih (k + 1) _

theorem fromImageRows_imageGrid (img : Image) (size : Int × Int) :
    fromImageRows img size (rangeInt img.Max.2) []
      = fromSpriteRows size 0 (imageGrid img) [] := by
  unfold imageGrid
  have h := fromImageRows_eq img size img.Max.2.toNat 0 []
  rw [← List.range_eq_range'] at h
  exact h

theorem fromSpriteRows_single (x : Color) (h : x.a ≠ 0) :
    fromSpriteRows (1, 1) 0 [[x]] [] = some [[storedColor x]] := by
  have h0 : wrapInt (1 - 1) = 0 := by decide
  have hn : ¬ ((0 : Nat) : Int) > 0 := by decide
  have hp : ((0 + 1 : Nat) : Int) > 0 := by decide
  simp only [fromSpriteRows, fromSpriteRow, h0, hn, hp, if_false, if_true,
    convertSample_of_ne_zero x h, List.nil_append]

theorem GenerateFromSprite_single (spr : Sprite) (x : Color) (h : x.a ≠ 0) :
    spr.GenerateFromSprite [[x]] true = some ⟨(1, 1), [[storedColor x]]⟩ := by
  have hrun := GenerateFromSprite_eq spr [[x]] true 1 1
    (by rw [if_pos rfl]; rfl) (by constructor <;> omega) (by constructor <;> omega)
    (by
      intro iy ix x' hs _ _
      obtain ⟨row, hrow, hx⟩ := sampleAt_mem [[x]] iy ix x' hs
      rw [List.mem_singleton] at hrow
      subst hrow
      rw [List.mem_singleton] at hx
      subst hx
      exact h)
    (Or.inl (List.cons_ne_nil _ _))
  rw [hrun]
  rfl

theorem GenerateFromImage_single (spr : Sprite) (x : Color) (h : x.a ≠ 0) :
    spr.GenerateFromImage ⟨(1, 1), fun _ _ => x⟩ true
      = some ⟨(1, 1), [[storedColor x]]⟩ := by
  have hg : imageGrid ⟨(1, 1), fun _ _ => x⟩ = [[x]] := by
    simp [imageGrid, rangeInt]
  unfold Sprite.GenerateFromImage
  rw [if_pos rfl, fromImageRows_imageGrid, hg]
  simp only
  rw [fromSpriteRows_single x h]

theorem uint8_div_of_le (r a : Nat) (ha : 0 < a) (hr : r ≤ a) :
    (uint8 (r / a)).val = if r = a then 1 else 0 := by
  by_cases h : r = a
  · subst h
    rw [if_pos rfl]
    show r / r % 256 = 1
    rw [Nat.div_self ha]
  · rw [if_neg h]
    show r / a % 256 = 0
    rw [Nat.div_eq_of_lt (by omega)]

theorem utf8Size_ge_one (ch : Char) : 1 ≤ ch.utf8Size := by
  unfold Char.utf8Size
  simp only
  split
  · exact Nat.le_refl _
  · split
    · decide
    · split <;> decide

theorem genRow_length_le (size0 mode : Int) :
    ∀ (cs : List Char) (i2 : Nat) (o : List RGBA),
      (genRow size0 mode i2 cs o).length
        ≤ o.length + ((wrapInt (size0 - 1) + 1).toNat - i2) := by
  intro cs
  induction cs with
  | nil => intro i2 o; simp [genRow]
  | cons ch rest ih =>
    intro i2 o
    have h1 := utf8Size_ge_one ch
    unfold genRow
    by_cases hskip : (i2 : Int) > wrapInt (size0 - 1)
    · rw [if_pos hskip]
      have := ih (i2 + ch.utf8Size) o
      omega
    · rw [if_neg hskip]
      have := ih (i2 + ch.utf8Size) (o ++ [decodeChar mode ch])
      simp only [List.length_append, List.length_singleton] at this
      omega

theorem fromSpriteRow_length_le (size0 : Int) :
    ∀ (row : List Color) (ix : Nat) (o o' : List RGBA),
      fromSpriteRow size0 ix row o = some o' →
      o'.length ≤ o.length + ((wrapInt (size0 - 1) + 1).toNat - ix) := by
  intro row
  induction row with
  | nil =>
    intro ix o o' h
    simp only [fromSpriteRow, Option.some.injEq] at h
    subst h
    omega
  | cons x rest ih =>
    intro ix o o' h
    unfold fromSpriteRow at h
    by_cases hskip : (ix : Int) > wrapInt (size0 - 1)
    · rw [if_pos hskip] at h
      have := ih (ix + 1) o o' h
      omega
    · rw [if_neg hskip] at h
      cases hc : convertSample x with
      | none => rw [hc] at h; cases h
      | some col =>
        rw [hc] at h
        have := ih (ix + 1) (o ++ [col]) o' h
        simp only [List.length_append, List.length_singleton] at this
        omega

theorem fromSpriteRows_bounds (size : Int × Int) :
    ∀ (grid : List (List Color)) (iy : Nat) (pixels pixels' : List (List RGBA)),
      fromSpriteRows size iy grid pixels = some pixels' →
      pixels'.length ≤ pixels.length + ((wrapInt (size.2 - 1) + 1).toNat - iy) ∧
      ∀ row ∈ pixels', row ∈ pixels ∨ row.length ≤ (wrapInt (size.1 - 1) + 1).toNat := by
  intro grid
  induction grid with
  | nil =>
    intro iy pixels pixels' h
    simp only [fromSpriteRows, Option.some.injEq] at h
    subst h
    exact ⟨by omega, fun row hrow => Or.inl hrow⟩
  | cons y rest ih =>
    intro iy pixels pixels' h
    unfold fromSpriteRows at h
    by_cases hskip : (iy : Int) > wrapInt (size.2 - 1)
    · rw [if_pos hskip] at h
      obtain ⟨h1, h2⟩ := ih (iy + 1) pixels pixels' h
      exact ⟨by omega, h2⟩
    · rw [if_neg hskip] at h
      cases hr : fromSpriteRow size.1 0 y [] with
      | none => rw [hr] at h; cases h
      | some o =>
        rw [hr] at h
        obtain ⟨h1, h2⟩ := ih (iy + 1) (pixels ++ [o]) pixels' h
        have ho := fromSpriteRow_length_le size.1 y 0 [] o hr
        simp only [List.length_append, List.length_singleton] at h1
        refine ⟨by omega, ?_⟩
        intro row hrow
        rcases h2 row hrow with hm | hl
        · rcases List.mem_append.mp hm with hp | hs
          · exact Or.inl hp
          · rw [List.mem_singleton] at hs
            subst hs
            right
            simpa using ho
        · exact Or.inr hl

theorem sum_lengths_le (w h : Nat) :
    ∀ px : List (List RGBA), px.length ≤ h → (∀ row ∈ px, row.length ≤ w) →
      (px.map List.length).sum ≤ w * h := by
  intro px
  induction px generalizing h with
  | nil => intro _ _; simp
  | cons row rest ih =>
    intro hlen hrow
    simp only [List.length_cons] at hlen
    have h1 : row.length ≤ w := hrow row (List.mem_cons_self _ _)
    have h2 := ih (h - 1) (by omega) (fun r hr => hrow r (List.mem_cons_of_mem _ hr))
    simp only [List.map_cons, List.sum_cons]
    have h3 : w * h = w * (h - 1) + w := by
      have : h = (h - 1) + 1 := by omega
      rw [this, Nat.mul_succ]
      simp
    omega

/-! ## Claims -/

/-- C1: after `Generate(c)` on a sprite of size `(w, h)` with `w, h ≥ 0`,
`GetPixel(x, y)` returns `(c, true)` for every `0 ≤ x < w`, `0 ≤ y < h`, and
returns `(RGBA{0,0,0,0}, false)` for all non-negative `x, y` with `x ≥ w` or
`y ≥ h`; neither call faults. -/
theorem C1_generate_getPixel (spr : Sprite) (w h : Int) (c : RGBA)
    (hsize : spr.Size = (w, h)) (hw : 0 ≤ w) (hh : 0 ≤ h) :
    (∀ x y : Int, 0 ≤ x → x < w → 0 ≤ y → y < h →
        (spr.Generate c).GetPixel x y = some (c, true)) ∧
    (∀ x y : Int, 0 ≤ x → 0 ≤ y → (w ≤ x ∨ h ≤ y) →
        (spr.Generate c).GetPixel x y = some (⟨0, 0, 0, 0⟩, false)) := by
  have hgen : spr.Generate c
      = ⟨spr.Size, List.replicate h.toNat (List.replicate w.toNat c)⟩ := by
    have hp := Generate_pixels spr c
    rw [hsize] at hp
    have hs : (spr.Generate c).Size = spr.Size := rfl
    cases hg : spr.Generate c with
    | mk s p => rw [hg] at hp hs; simp only at hp hs; rw [hp, hs]
  rw [hgen]
  constructor
  · intro x y hx0 hxw hy0 hyh
    obtain ⟨xn, rfl⟩ := Int.eq_ofNat_of_zero_le hx0
    obtain ⟨yn, rfl⟩ := Int.eq_ofNat_of_zero_le hy0
    exact GetPixel_replicate_in _ _ _ c xn yn (by omega) (by omega)
  · intro x y hx0 hy0 hout
    obtain ⟨xn, rfl⟩ := Int.eq_ofNat_of_zero_le hx0
    obtain ⟨yn, rfl⟩ := Int.eq_ofNat_of_zero_le hy0
    exact GetPixel_replicate_out _ _ _ c xn yn (by omega)

/-- Witness of C1 on a 2×3 sprite filled with opaque red. -/
theorem C1_generate_getPixel_witness :
    (Sprite.Generate ⟨(2, 3), []⟩ ⟨255, 0, 0, 255⟩).GetPixel 1 2
        = some (⟨255, 0, 0, 255⟩, true) ∧
    (Sprite.Generate ⟨(2, 3), []⟩ ⟨255, 0, 0, 255⟩).GetPixel 2 0
        = some (⟨0, 0, 0, 0⟩, false) :=
  ⟨(C1_generate_getPixel ⟨(2, 3), []⟩ 2 3 ⟨255, 0, 0, 255⟩ rfl (by decide) (by decide)).1
      1 2 (by decide) (by decide) (by decide) (by decide),
   (C1_generate_getPixel ⟨(2, 3), []⟩ 2 3 ⟨255, 0, 0, 255⟩ rfl (by decide) (by decide)).2
      2 0 (by decide) (by decide) (Or.inl (by decide))⟩

/-- C2 (the code faults): on a 1×1 sprite, `GetPixel(-1, 0)` and
`SetPixel(-1, 0, c)` pass the upper-bound test and then index the row at `-1`,
and `GetPixel(0, -1)` indexes the row slice at `-1`; each is a run-time panic
instead of the `(RGBA{0,0,0,0}, false)` / `false` result. -/
theorem C2_negative_index_faults :
    (Sprite.Generate ⟨(1, 1), []⟩ ⟨0, 0, 0, 255⟩).GetPixel (-1) 0 = none ∧
    (Sprite.Generate ⟨(1, 1), []⟩ ⟨0, 0, 0, 255⟩).GetPixel 0 (-1) = none ∧
    (Sprite.Generate ⟨(1, 1), []⟩ ⟨0, 0, 0, 255⟩).SetPixel (-1) 0 ⟨255, 255, 255, 255⟩ = none ∧
    (Sprite.Generate ⟨(1, 1), []⟩ ⟨0, 0, 0, 255⟩).SetPixel 0 (-1) ⟨255, 255, 255, 255⟩ = none := by
  decide

/-- C3: for every sprite, colour `c` and in-range position (`0 ≤ y <` number
of rows, `0 ≤ x <` length of row `y`), `SetPixel(x, y, c)` returns `true` and
the following `GetPixel(x, y)` returns `(c, true)`. -/
theorem C3_setPixel_getPixel (spr : Sprite) (c : RGBA) (x y : Int) (row : List RGBA)
    (hy0 : 0 ≤ y) (hrow : spr.pixels[y.toNat]? = some row)
    (hx0 : 0 ≤ x) (hx : x < (row.length : Int)) :
    ∃ spr', spr.SetPixel x y c = some (spr', true) ∧
      spr'.GetPixel x y = some (c, true) := by
  obtain ⟨xn, rfl⟩ := Int.eq_ofNat_of_zero_le hx0
  obtain ⟨yn, rfl⟩ := Int.eq_ofNat_of_zero_le hy0
  simp only [Int.toNat_ofNat] at hrow
  have hylt : yn < spr.pixels.length := by
    rcases Nat.lt_or_ge yn spr.pixels.length with h | h
    · exact h
    · rw [List.getElem?_eq_none h] at hrow; cases hrow
  have hxlt : xn < row.length := by omega
  refine ⟨{ spr with pixels := spr.pixels.set yn (row.set xn c) }, ?_, ?_⟩
  · simp [Sprite.SetPixel, index?_of_inRange, assign?, hrow, hylt, hxlt]
  · simp [Sprite.GetPixel, index?_of_inRange, hylt, hxlt, List.getElem?_set]

/-- Witness of C3 on a 2×2 sprite. -/
theorem C3_setPixel_getPixel_witness :
    ∃ spr', (Sprite.Generate ⟨(2, 2), []⟩ ⟨0, 0, 0, 255⟩).SetPixel 1 0 ⟨255, 0, 0, 255⟩
        = some (spr', true) ∧
      spr'.GetPixel 1 0 = some (⟨255, 0, 0, 255⟩, true) :=
  C3_setPixel_getPixel (Sprite.Generate ⟨(2, 2), []⟩ ⟨0, 0, 0, 255⟩) ⟨255, 0, 0, 255⟩ 1 0
    [⟨0, 0, 0, 255⟩, ⟨0, 0, 0, 255⟩] (by decide) (by decide) (by decide) (by decide)

/-- C4 (counterexample): a 4×4 board whose four rows are the same slice, so
that they share four elements of storage, and a 2×2 red sprite drawn at offset
`(1, 1)`.  The sprite fits, yet the cell `(row 0, column 1)`, which is not a
destination, turns red: the frame part of the claim fails on this board. -/
theorem C4_drawSpriteOnBoard_shared_rows :
    ¬ (∃ board',
        Sprite.DrawSpriteOnBoard (Sprite.Generate ⟨(2, 2), []⟩ ⟨255, 0, 0, 255⟩) 1 1
          ⟨List.replicate 4 ⟨0, 4⟩, List.replicate 4 ⟨0, 0, 0, 255⟩⟩ = some board' ∧
        ∀ R C : Nat, (¬ ∃ r c : Nat, R = 1 + r ∧ C = 1 + c ∧
            (cellAt (Sprite.Generate ⟨(2, 2), []⟩ ⟨255, 0, 0, 255⟩).pixels r c).isSome = true) →
          boardCell board' R C
            = boardCell ⟨List.replicate 4 ⟨0, 4⟩, List.replicate 4 ⟨0, 0, 0, 255⟩⟩ R C) := by
  rintro ⟨board', hrun, hframe⟩
  have hb : board' = ⟨List.replicate 4 ⟨0, 4⟩,
      [⟨0, 0, 0, 255⟩, ⟨255, 0, 0, 255⟩, ⟨255, 0, 0, 255⟩, ⟨0, 0, 0, 255⟩]⟩ := by
    have hc : Sprite.DrawSpriteOnBoard (Sprite.Generate ⟨(2, 2), []⟩ ⟨255, 0, 0, 255⟩) 1 1
        ⟨List.replicate 4 ⟨0, 4⟩, List.replicate 4 ⟨0, 0, 0, 255⟩⟩
        = some ⟨List.replicate 4 ⟨0, 4⟩,
            [⟨0, 0, 0, 255⟩, ⟨255, 0, 0, 255⟩, ⟨255, 0, 0, 255⟩, ⟨0, 0, 0, 255⟩]⟩ := by
      decide
    rw [hc] at hrun
    exact (Option.some.inj hrun).symm
  subst hb
  have h01 := hframe 0 1 (by
    rintro ⟨r, c, hr, _, _⟩
    omega)
  revert h01
  decide

/-- C4 (amended): for every sprite, every rectangular board whose rows lie
within the board's storage and do not overlap one another, and all offsets
`offsetX ≥ 0`, `offsetY ≥ 0` such that the sprite fits inside the board
(`offsetY + rows ≤ board rows`, `offsetX + row length ≤` board row length `W`;
the board's lengths are Go `int`s), `DrawSpriteOnBoard` completes,
`board[offsetY + r][offsetX + c]` holds the sprite's cell `(r, c)` for every
sprite cell, every board cell that is not such a destination is unchanged, and
the board keeps its row headers, hence its row count and row lengths. -/
theorem C4_drawSpriteOnBoard_fits (spr : Sprite) (board : Board)
    (offsetX offsetY : Int) (W : Nat)
    (hx : 0 ≤ offsetX) (hy : 0 ≤ offsetY)
    (hrect : ∀ hdr ∈ board.rows, hdr.len = W)
    (hmem : ∀ hdr ∈ board.rows, hdr.ptr + hdr.len ≤ board.mem.length)
    (hsep : board.rows.Pairwise
      (fun h1 h2 => h1.ptr + h1.len ≤ h2.ptr ∨ h2.ptr + h2.len ≤ h1.ptr))
    (hfitY : offsetY + (spr.pixels.length : Int) ≤ (board.rows.length : Int))
    (hfitX : ∀ row ∈ spr.pixels, offsetX + (row.length : Int) ≤ (W : Int))
    (hrows : board.rows.length < 9223372036854775808) (hcols : W < 9223372036854775808) :
    ∃ board', spr.DrawSpriteOnBoard offsetX offsetY board = some board' ∧
      (∀ r c col, cellAt spr.pixels r c = some col →
        boardCell board' (offsetY.toNat + r) (offsetX.toNat + c) = some col) ∧
      (∀ R C, (¬ ∃ r c, R = offsetY.toNat + r ∧ C = offsetX.toNat + c ∧
          (cellAt spr.pixels r c).isSome = true) →
        boardCell board' R C = boardCell board R C) ∧
      board'.rows = board.rows := by
  obtain ⟨ox, rfl⟩ := Int.eq_ofNat_of_zero_le hx
  obtain ⟨oy, rfl⟩ := Int.eq_ofNat_of_zero_le hy
  obtain ⟨hdrs, mem⟩ := board
  simp only at hrect hmem hsep hfitY hrows
  have hsep' : ∀ (i j : Nat) (hi hj : RowSlice), i ≠ j → hdrs[i]? = some hi →
      hdrs[j]? = some hj → hi.ptr + hi.len ≤ hj.ptr ∨ hj.ptr + hj.len ≤ hi.ptr := by
    intro i j hi hj hne h1 h2
    have hil := lt_of_getElem?_some hdrs i hi h1
    have hjl := lt_of_getElem?_some hdrs j hj h2
    rw [List.getElem?_eq_getElem hil] at h1
    rw [List.getElem?_eq_getElem hjl] at h2
    have e1 := Option.some.inj h1
    have e2 := Option.some.inj h2
    rcases Nat.lt_or_gt_of_ne hne with hlt | hgt
    · have := List.pairwise_iff_getElem.mp hsep i j hil hjl hlt
      rw [e1, e2] at this
      exact this
    · have := List.pairwise_iff_getElem.mp hsep j i hjl hil hgt
      rw [e1, e2] at this
      omega
  obtain ⟨mem', hrun, _, hP1, hP2⟩ :=
    drawRows_spec ox oy W hcols hdrs hrows hrect hsep' spr.pixels 0 mem hmem (by omega)
      (fun row hrow => by have := hfitX row hrow; omega)
  refine ⟨⟨hdrs, mem'⟩, hrun, ?_, ?_, rfl⟩
  · intro r c col hcol
    simp only [Int.toNat_ofNat]
    obtain ⟨row, hrow, hc⟩ := cellAt_some_row spr.pixels r c col hcol
    have hr : r < spr.pixels.length := lt_of_getElem?_some _ _ _ hrow
    have hcl : c < row.length := lt_of_getElem?_some _ _ _ hc
    have hfx := hfitX row (List.getElem?_mem hrow)
    obtain ⟨hdr, hhdr⟩ := getElem?_some_of_lt hdrs (oy + r) (by omega)
    have hl : hdr.len = W := hrect hdr (List.getElem?_mem hhdr)
    have hlt : ox + c < hdr.len := by omega
    unfold boardCell
    simp only
    rw [hhdr]
    simp only [Option.some_bind]
    rw [if_pos hlt]
    exact hP1 r c col hdr hcol (by rw [Nat.zero_add]; exact hhdr)
  · intro R C hno
    simp only [Int.toNat_ofNat] at hno
    unfold boardCell
    simp only
    cases hhdr : hdrs[R]? with
    | none => rfl
    | some hdr =>
      simp only [Option.some_bind]
      by_cases hC : C < hdr.len
      · rw [if_pos hC, if_pos hC]
        apply hP2
        intro r c hdr' hsome hh'
        rw [Nat.zero_add] at hh'
        obtain ⟨row, hrow, hcl⟩ := cellAt_isSome_row spr.pixels r c hsome
        have hfx := hfitX row (List.getElem?_mem hrow)
        have hl : hdr.len = W := hrect hdr (List.getElem?_mem hhdr)
        have hl' : hdr'.len = W := hrect hdr' (List.getElem?_mem hh')
        by_cases hRr : R = oy + r
        · subst hRr
          have he : hdr' = hdr := by
            rw [hhdr] at hh'
            exact (Option.some.inj hh').symm
          subst he
          intro heq
          exact hno ⟨r, c, rfl, by omega, hsome⟩
        · have := hsep' R (oy + r) hdr hdr' hRr hhdr hh'
          omega
      · rw [if_neg hC, if_neg hC]

/-- Witness of C4 (amended): a 2×2 opaque-red sprite drawn at offset `(1, 1)` on
a 4×4 opaque-black board of separately allocated rows turns exactly the cells
`(1,1)`, `(2,1)`, `(1,2)`, `(2,2)` red. -/
theorem C4_drawSpriteOnBoard_fits_witness :
    (∃ board',
      Sprite.DrawSpriteOnBoard (Sprite.Generate ⟨(2, 2), []⟩ ⟨255, 0, 0, 255⟩) 1 1
        (boardOfRows (List.replicate 4 (List.replicate 4 ⟨0, 0, 0, 255⟩))) = some board' ∧
      (∀ r c col,
        cellAt (Sprite.Generate ⟨(2, 2), []⟩ ⟨255, 0, 0, 255⟩).pixels r c = some col →
        boardCell board' ((1 : Int).toNat + r) ((1 : Int).toNat + c) = some col) ∧
      (∀ R C, (¬ ∃ r c, R = (1 : Int).toNat + r ∧ C = (1 : Int).toNat + c ∧
          (cellAt (Sprite.Generate ⟨(2, 2), []⟩ ⟨255, 0, 0, 255⟩).pixels r c).isSome = true) →
        boardCell board' R C
          = boardCell (boardOfRows (List.replicate 4 (List.replicate 4 ⟨0, 0, 0, 255⟩))) R C) ∧
      board'.rows
        = (boardOfRows (List.replicate 4 (List.replicate 4 ⟨0, 0, 0, 255⟩))).rows) ∧
    (Sprite.DrawSpriteOnBoard (Sprite.Generate ⟨(2, 2), []⟩ ⟨255, 0, 0, 255⟩) 1 1
        (boardOfRows (List.replicate 4 (List.replicate 4 ⟨0, 0, 0, 255⟩)))).map boardGrid
      = some [[⟨0, 0, 0, 255⟩, ⟨0, 0, 0, 255⟩, ⟨0, 0, 0, 255⟩, ⟨0, 0, 0, 255⟩],
              [⟨0, 0, 0, 255⟩, ⟨255, 0, 0, 255⟩, ⟨255, 0, 0, 255⟩, ⟨0, 0, 0, 255⟩],
              [⟨0, 0, 0, 255⟩, ⟨255, 0, 0, 255⟩, ⟨255, 0, 0, 255⟩, ⟨0, 0, 0, 255⟩],
              [⟨0, 0, 0, 255⟩, ⟨0, 0, 0, 255⟩, ⟨0, 0, 0, 255⟩, ⟨0, 0, 0, 255⟩]] :=
  ⟨C4_drawSpriteOnBoard_fits (Sprite.Generate ⟨(2, 2), []⟩ ⟨255, 0, 0, 255⟩)
      (boardOfRows (List.replicate 4 (List.replicate 4 ⟨0, 0, 0, 255⟩))) 1 1 4
      (by decide) (by decide) (by decide) (by decide) (by decide) (by decide) (by decide)
      (by decide) (by decide),
   by decide⟩

/-- C5 (the code faults): a 2×2 sprite drawn at offset `(3, 3)` on a 4×4 board
of separately allocated rows.  The first cell is written at `board[3][3]`; for
the second cell the shifted column index is `4`, the test `4 > len(board[3])`
is false, and `board[3][4] = x` is a run-time panic.  With offset `(0, 3)` the
second sprite row has shifted index `4`, `4 > len(board)` is false, and
`board[4]` panics.  With offset `(5, 5)` every cell is skipped. -/
theorem C5_drawSpriteOnBoard_edge_faults :
    Sprite.DrawSpriteOnBoard (Sprite.Generate ⟨(2, 2), []⟩ ⟨255, 0, 0, 255⟩) 3 3
        (boardOfRows (List.replicate 4 (List.replicate 4 ⟨0, 0, 0, 255⟩))) = none ∧
    Sprite.DrawSpriteOnBoard (Sprite.Generate ⟨(2, 2), []⟩ ⟨255, 0, 0, 255⟩) 0 3
        (boardOfRows (List.replicate 4 (List.replicate 4 ⟨0, 0, 0, 255⟩))) = none ∧
    Sprite.DrawSpriteOnBoard (Sprite.Generate ⟨(2, 2), []⟩ ⟨255, 0, 0, 255⟩) 5 5
        (boardOfRows (List.replicate 4 (List.replicate 4 ⟨0, 0, 0, 255⟩)))
      = some (boardOfRows (List.replicate 4 (List.replicate 4 ⟨0, 0, 0, 255⟩))) ∧
    boardGrid (boardOfRows (List.replicate 4 (List.replicate 4 ⟨0, 0, 0, 255⟩)))
      = List.replicate 4 (List.replicate 4 ⟨0, 0, 0, 255⟩) := by
  decide

/-- C6: for a sprite of size `(w, h)` with `0 ≤ w, h` (Go `int`s), every mode
and every text of single-byte characters, after `GenerateFromString(text, mode)`
the cell at row `i`, column `j` (`i < h`, `j < w`, line `i` existing, `j` below
the length of line `i`) is the decoding of character `j` of line `i`; for
`mode ≤ 0` tab and space decode to `RGBA{0,0,0,255}` and every other character
to `RGBA{255,255,255,255}`; for `mode ≥ 1`, `r`, `g`, `b` decode to opaque red,
green, blue, tab and space to opaque black and every other character to opaque
white. -/
theorem C6_generateFromString_ascii (spr : Sprite) (w h mode : Int) (str : String)
    (hsize : spr.Size = (w, h))
    (hw0 : 0 ≤ w) (hw : w < 9223372036854775808)
    (hh0 : 0 ≤ h) (hh : h < 9223372036854775808)
    (hascii : ∀ ch ∈ str.toList, ch.val < 128) :
    (∀ (i j : Nat) (ln : List Char) (ch : Char),
        (i : Int) < h → (j : Int) < w →
        (splitNewline str.toList)[i]? = some ln → ln[j]? = some ch →
        cellAt (spr.GenerateFromString str mode).pixels i j = some (decodeChar mode ch)) ∧
    (∀ ch : Char, mode ≤ 0 →
        decodeChar mode ch
          = if ch = '\t' ∨ ch = ' ' then ⟨0, 0, 0, 255⟩ else ⟨255, 255, 255, 255⟩) ∧
    (∀ ch : Char, 1 ≤ mode →
        decodeChar mode ch
          = if ch = 'r' then ⟨255, 0, 0, 255⟩
            else if ch = 'g' then ⟨0, 255, 0, 255⟩
            else if ch = 'b' then ⟨0, 0, 255, 255⟩
            else if ch = '\t' ∨ ch = ' ' then ⟨0, 0, 0, 255⟩
            else ⟨255, 255, 255, 255⟩) := by
  refine ⟨?_, ?_, ?_⟩
  · intro i j ln ch hi hj hline hch
    obtain ⟨wn, rfl⟩ := Int.eq_ofNat_of_zero_le hw0
    have hpix : (spr.GenerateFromString str mode).pixels
        = ((splitNewline str.toList).take h.toNat).map
            (fun l => genRow (wn : Int) mode 0 l []) := by
      show genRows spr.Size mode 0 (splitNewline str.toList) [] = _
      rw [hsize, genRows_spec (wn : Int) h hh0 hh mode]
      simp
    have hi' : i < h.toNat := by omega
    have hj' : j < wn := by omega
    have hl : ∀ c ∈ ln, c.val < 128 := fun c hc =>
      hascii c (mem_of_mem_splitNewline _ ln (List.getElem?_mem hline) c hc)
    unfold cellAt
    rw [hpix, List.getElem?_map, List.getElem?_take, if_pos hi', hline]
    simp only [Option.map_some', Option.some_bind]
    rw [genRow_ascii wn (by omega) mode ln 0 [] hl]
    simp only [List.nil_append, Nat.sub_zero]
    rw [List.getElem?_map, List.getElem?_take, if_pos hj', hch]
    rfl
  · intro ch hm
    unfold decodeChar
    rw [if_pos hm]
  · intro ch hm
    unfold decodeChar
    rw [if_neg (by omega)]

/-- Witness of C6: size `(2, 1)`, mode 1, text `rg` gives the single row
`[opaque red, opaque green]`. -/
theorem C6_generateFromString_ascii_witness :
    cellAt (Sprite.GenerateFromString ⟨(2, 1), []⟩ "rg" 1).pixels 0 0
        = some ⟨255, 0, 0, 255⟩ ∧
    cellAt (Sprite.GenerateFromString ⟨(2, 1), []⟩ "rg" 1).pixels 0 1
        = some ⟨0, 255, 0, 255⟩ ∧
    (Sprite.GenerateFromString ⟨(2, 1), []⟩ "rg" 1).pixels
        = [[⟨255, 0, 0, 255⟩, ⟨0, 255, 0, 255⟩]] :=
  ⟨(C6_generateFromString_ascii ⟨(2, 1), []⟩ 2 1 1 "rg" rfl (by decide) (by decide)
      (by decide) (by decide) (by decide)).1 0 0 ['r', 'g'] 'r'
      (by decide) (by decide) (by decide) (by decide),
   (C6_generateFromString_ascii ⟨(2, 1), []⟩ 2 1 1 "rg" rfl (by decide) (by decide)
      (by decide) (by decide) (by decide)).1 0 1 ['r', 'g'] 'g'
      (by decide) (by decide) (by decide) (by decide),
   by decide⟩

/-- C7 (the code skips by byte offset): with size `(2, 1)`, mode 0 and the text
`éa` (two characters, the first encoded in two bytes), the second character
starts at byte offset `2`, the test `i2 > Size[0]-1` skips it, and the row has
one cell instead of the first `min(2, 2) = 2` characters.  On the single-byte
text of the specification's example the rows are as stated. -/
theorem C7_generateFromString_multibyte :
    (Sprite.GenerateFromString ⟨(2, 1), []⟩ "éa" 0).pixels
        = [[⟨255, 255, 255, 255⟩]] ∧
    (splitNewline "éa".toList).map List.length = [2] ∧
    (Sprite.GenerateFromString ⟨(3, 2), []⟩ " r\nab" 0).pixels
        = [[⟨0, 0, 0, 255⟩, ⟨255, 255, 255, 255⟩],
           [⟨255, 255, 255, 255⟩, ⟨255, 255, 255, 255⟩]] := by
  decide

/-- C8 (the code tests the wrong slice): after `Generate(c)` on a voxel sprite
of size `(2, 1, 1)`, the in-range `GetVoxel(1, 0, 0)` compares `x = 1` with
`len(spr.pixels[0]) = 1` (the row count of plane 0) and returns
`(RGBA{0,0,0,0}, false)`, and `SetVoxel(1, 0, 0, c2)` returns `false` and
writes nothing; on size `(1, 2, 1)` the in-range `GetVoxel(0, 1, 0)` and
`SetVoxel(0, 1, 0, c2)` evaluate `spr.pixels[1]` on a one-plane grid, a
run-time panic.  On a cube the calls behave as claimed. -/
theorem C8_voxel_in_range_fails :
    (VoxelSprite.Generate ⟨(2, 1, 1), []⟩ ⟨255, 0, 0, 255⟩).GetVoxel 1 0 0
        = some (⟨0, 0, 0, 0⟩, false) ∧
    (VoxelSprite.Generate ⟨(2, 1, 1), []⟩ ⟨255, 0, 0, 255⟩).SetVoxel 1 0 0 ⟨0, 255, 0, 255⟩
        = some (VoxelSprite.Generate ⟨(2, 1, 1), []⟩ ⟨255, 0, 0, 255⟩, false) ∧
    (VoxelSprite.Generate ⟨(1, 2, 1), []⟩ ⟨255, 0, 0, 255⟩).GetVoxel 0 1 0 = none ∧
    (VoxelSprite.Generate ⟨(1, 2, 1), []⟩ ⟨255, 0, 0, 255⟩).SetVoxel 0 1 0 ⟨0, 255, 0, 255⟩
        = none ∧
    (VoxelSprite.Generate ⟨(2, 2, 2), []⟩ ⟨255, 0, 0, 255⟩).GetVoxel 1 0 1
        = some (⟨255, 0, 0, 255⟩, true) := by
  decide

/-- C9 (the code tests the wrong slice): after `Generate(c)` on a voxel sprite
of size `(1, 2, 2)`, the out-of-range `GetVoxel(1, 0, 0)` compares `x = 1` with
`len(spr.pixels[0]) = 2`, passes, and `spr.pixels[0][0][1]` is a run-time panic
on a row of one cell, as is the assignment in `SetVoxel(1, 0, 0, c2)`; on size
`(1, 2, 1)`, `GetVoxel(1, 1, 0)` evaluates `spr.pixels[1]` on a one-plane grid
and panics.  The specification's example, size `(2, 2, 2)` and
`GetVoxel(5, 0, 0)`, returns `(RGBA{0,0,0,0}, false)`. -/
theorem C9_voxel_out_of_range_faults :
    (VoxelSprite.Generate ⟨(1, 2, 2), []⟩ ⟨255, 0, 0, 255⟩).GetVoxel 1 0 0 = none ∧
    (VoxelSprite.Generate ⟨(1, 2, 2), []⟩ ⟨255, 0, 0, 255⟩).SetVoxel 1 0 0 ⟨0, 255, 0, 255⟩
        = none ∧
    (VoxelSprite.Generate ⟨(1, 2, 1), []⟩ ⟨255, 0, 0, 255⟩).GetVoxel 1 1 0 = none ∧
    (VoxelSprite.Generate ⟨(2, 2, 2), []⟩ ⟨255, 0, 0, 255⟩).GetVoxel 5 0 0
        = some (⟨0, 0, 0, 0⟩, false) := by
  decide

/-- C10: for every sprite (ragged rows and the empty grid included) and every
colour `c`, `GetColors()` maps `c` to the number of grid cells equal to `c`, has
`c` as a key exactly when `c` occurs in the grid, and, its keys being distinct,
the sum of its counts is the total number of grid cells. -/
theorem C10_getColors_census (spr : Sprite) (c : RGBA) :
    mapGet spr.GetColors c = ((spr.pixels.flatten).count c : Int) ∧
    ((mapLookup spr.GetColors c).isSome = true ↔ c ∈ spr.pixels.flatten) ∧
    (mapLookup spr.GetColors c).isSome = (spr.GetColors.map Prod.fst).contains c ∧
    ((spr.GetColors.map Prod.snd).sum = ((spr.pixels.map List.length).sum : Nat)) ∧
    (spr.GetColors.map Prod.fst).Nodup := by
  obtain ⟨h1, h2, h3⟩ := foldl_mapIncr_spec c spr.pixels.flatten []
  have hgc : spr.GetColors
      = (spr.pixels.flatten).foldl (fun out x => mapIncr out x) [] :=
    foldl_rows_eq_foldl_flatten spr.pixels []
  rw [hgc]
  refine ⟨?_, ?_, ?_, ?_, ?_⟩
  · unfold mapGet
    rw [h1]
    by_cases hc : c ∈ spr.pixels.flatten
    · rw [if_pos hc]; simp [mapGet, mapLookup]
    · rw [if_neg hc, List.count_eq_zero_of_not_mem hc]; simp [mapLookup]
  · rw [h1]
    by_cases hc : c ∈ spr.pixels.flatten
    · rw [if_pos hc]; simp [hc]
    · rw [if_neg hc]; simp [hc, mapLookup]
  · exact isSome_mapLookup _ c
  · rw [h2]; simp [List.length_flatten]
  · exact h3 (by simp)

/-- C11 (counterexample): on a sprite of size `(3, 2)`, `GenerateFromString`
with the text of two lines ` r` and `ab` in mode 0 completes with two rows of
two cells each, so it is not the case that every row has exactly `3` cells and
the `GetColors` counts sum to `3 * 2`. -/
theorem C11_generateFromString_ragged :
    ¬ (((Sprite.GenerateFromString ⟨(3, 2), []⟩ " r\nab" 0).pixels.length : Int) = 2 ∧
        (∀ row ∈ (Sprite.GenerateFromString ⟨(3, 2), []⟩ " r\nab" 0).pixels,
          (row.length : Int) = 3) ∧
        ((Sprite.GenerateFromString ⟨(3, 2), []⟩ " r\nab" 0).GetColors.map Prod.snd).sum
          = 3 * 2) := by
  decide

/-- C11 (amended): let `0 ≤ w, h` be Go `int`s.  After `Generate` on a sprite of
size `(w, h)` the grid has exactly `h` rows, every row has exactly `w` cells and
the `GetColors` counts sum to `w * h`.  After `GenerateFromString` on a sprite
of size `(w, h)`, and after a completed `GenerateFromSprite` or
`GenerateFromImage` that leaves the sprite with size `(w, h)`, the grid has at
most `h` rows, every row has at most `w` cells and the `GetColors` counts sum
to at most `w * h`. -/
theorem C11_generate_size_bounds (w h : Int)
    (hw0 : 0 ≤ w) (hw : w < 9223372036854775808)
    (hh0 : 0 ≤ h) (hh : h < 9223372036854775808) :
    (∀ (spr : Sprite) (c : RGBA), spr.Size = (w, h) →
      ((spr.Generate c).pixels.length : Int) = h ∧
      (∀ row ∈ (spr.Generate c).pixels, (row.length : Int) = w) ∧
      ((spr.Generate c).GetColors.map Prod.snd).sum = w * h) ∧
    (∀ (spr : Sprite) (str : String) (mode : Int), spr.Size = (w, h) →
      ((spr.GenerateFromString str mode).pixels.length : Int) ≤ h ∧
      (∀ row ∈ (spr.GenerateFromString str mode).pixels, (row.length : Int) ≤ w) ∧
      ((spr.GenerateFromString str mode).GetColors.map Prod.snd).sum ≤ w * h) ∧
    (∀ (spr : Sprite) (sprite : List (List Color)) (overwriteOwnSize : Bool) (spr' : Sprite),
      spr.GenerateFromSprite sprite overwriteOwnSize = some spr' → spr'.Size = (w, h) →
      (spr'.pixels.length : Int) ≤ h ∧
      (∀ row ∈ spr'.pixels, (row.length : Int) ≤ w) ∧
      (spr'.GetColors.map Prod.snd).sum ≤ w * h) ∧
    (∀ (spr : Sprite) (img : Image) (overwriteOwnSize : Bool) (spr' : Sprite),
      spr.GenerateFromImage img overwriteOwnSize = some spr' → spr'.Size = (w, h) →
      (spr'.pixels.length : Int) ≤ h ∧
      (∀ row ∈ spr'.pixels, (row.length : Int) ≤ w) ∧
      (spr'.GetColors.map Prod.snd).sum ≤ w * h) := by
  obtain ⟨wn, rfl⟩ := Int.eq_ofNat_of_zero_le hw0
  obtain ⟨hn, rfl⟩ := Int.eq_ofNat_of_zero_le hh0
  have hww : (wrapInt ((wn : Int) - 1) + 1).toNat = wn := by
    rw [wrapInt_of_inRange] <;> omega
  have hwh : (wrapInt ((hn : Int) - 1) + 1).toNat = hn := by
    rw [wrapInt_of_inRange] <;> omega
  -- every grid within the size has counts summing to at most `w * h`
  have hbound : ∀ s : Sprite, s.pixels.length ≤ hn → (∀ row ∈ s.pixels, row.length ≤ wn) →
      (s.pixels.length : Int) ≤ (hn : Int) ∧
      (∀ row ∈ s.pixels, (row.length : Int) ≤ (wn : Int)) ∧
      (s.GetColors.map Prod.snd).sum ≤ (wn : Int) * (hn : Int) := by
    intro s h1 h2
    refine ⟨by omega, fun row hrow => by have := h2 row hrow; omega, ?_⟩
    rw [GetColors_sum]
    have := sum_lengths_le wn hn s.pixels h1 h2
    exact_mod_cast this
  -- the two loops of `GenerateFromSprite` stay within the size
  have hrows : ∀ (size : Int × Int) (grid : List (List Color)) (px : List (List RGBA)),
      size = ((wn : Int), (hn : Int)) → fromSpriteRows size 0 grid [] = some px →
      px.length ≤ hn ∧ ∀ row ∈ px, row.length ≤ wn := by
    intro size grid px hsz hpx
    obtain ⟨h1, h2⟩ := fromSpriteRows_bounds size grid 0 [] px hpx
    rw [hsz] at h1 h2
    simp only [hww, hwh, List.length_nil, Nat.sub_zero, Nat.zero_add] at h1 h2
    refine ⟨h1, fun row hrow => ?_⟩
    rcases h2 row hrow with hm | hl
    · cases hm
    · exact hl
  refine ⟨?_, ?_, ?_, ?_⟩
  · intro spr c hsize
    have hp : (spr.Generate c).pixels = List.replicate hn (List.replicate wn c) := by
      rw [Generate_pixels, hsize]
      simp only [Int.toNat_ofNat]
    refine ⟨by rw [hp, List.length_replicate], ?_, ?_⟩
    · intro row hrow
      rw [hp] at hrow
      obtain ⟨_, rfl⟩ := List.mem_replicate.mp hrow
      rw [List.length_replicate]
    · rw [GetColors_sum, hp]
      simp only [List.map_replicate, List.length_replicate, List.sum_replicate, smul_eq_mul]
      push_cast
      ring
  · intro spr str mode hsize
    have hp : (spr.GenerateFromString str mode).pixels
        = ((splitNewline str.toList).take hn).map
            (fun l => genRow (wn : Int) mode 0 l []) := by
      show genRows spr.Size mode 0 (splitNewline str.toList) [] = _
      rw [hsize, genRows_spec (wn : Int) (hn : Int) hh0 hh mode]
      simp
    apply hbound
    · rw [hp, List.length_map, List.length_take]
      omega
    · intro row hrow
      rw [hp] at hrow
      simp only [List.mem_map] at hrow
      obtain ⟨l, _, rfl⟩ := hrow
      have := genRow_length_le (wn : Int) mode l 0 []
      simp only [hww, List.length_nil, Nat.sub_zero, Nat.zero_add] at this
      exact this
  · intro spr sprite flag spr' hrun hsize
    have hpx : ∃ size : Int × Int, size = spr'.Size ∧
        fromSpriteRows size 0 sprite [] = some spr'.pixels := by
      unfold Sprite.GenerateFromSprite at hrun
      cases flag with
      | true =>
        rw [if_pos rfl] at hrun
        cases hi : index? sprite 0 with
        | none => rw [hi] at hrun; cases hrun
        | some row0 =>
          rw [hi] at hrun
          simp only at hrun
          cases hf : fromSpriteRows ((row0.length : Int), (sprite.length : Int)) 0 sprite [] with
          | none => rw [hf] at hrun; cases hrun
          | some px =>
            rw [hf] at hrun
            have := Option.some.inj hrun
            subst this
            exact ⟨_, rfl, hf⟩
      | false =>
        rw [if_neg (by simp)] at hrun
        cases hf : fromSpriteRows spr.Size 0 sprite [] with
        | none => rw [hf] at hrun; cases hrun
        | some px =>
          rw [hf] at hrun
          have := Option.some.inj hrun
          subst this
          exact ⟨_, rfl, hf⟩
    obtain ⟨size, hsz, hf⟩ := hpx
    obtain ⟨h1, h2⟩ := hrows size sprite spr'.pixels (hsz.trans hsize) hf
    exact hbound spr' h1 h2
  · intro spr img flag spr' hrun hsize
    have hpx : ∃ size : Int × Int, size = spr'.Size ∧
        fromSpriteRows size 0 (imageGrid img) [] = some spr'.pixels := by
      unfold Sprite.GenerateFromImage at hrun
      cases flag with
      | true =>
        rw [if_pos rfl, fromImageRows_imageGrid] at hrun
        cases hf : fromSpriteRows img.Max 0 (imageGrid img) [] with
        | none => rw [hf] at hrun; cases hrun
        | some px =>
          rw [hf] at hrun
          have := Option.some.inj hrun
          subst this
          exact ⟨_, rfl, hf⟩
      | false =>
        rw [if_neg (by simp), fromImageRows_imageGrid] at hrun
        cases hf : fromSpriteRows spr.Size 0 (imageGrid img) [] with
        | none => rw [hf] at hrun; cases hrun
        | some px =>
          rw [hf] at hrun
          have := Option.some.inj hrun
          subst this
          exact ⟨_, rfl, hf⟩
    obtain ⟨size, hsz, hf⟩ := hpx
    obtain ⟨h1, h2⟩ := hrows size (imageGrid img) spr'.pixels (hsz.trans hsize) hf
    exact hbound spr' h1 h2

/-- Witness of C11 (amended) at size `(3, 2)`: `Generate` fills the grid, and
`GenerateFromString` on the text of two lines ` r` and `ab` stays within it. -/
theorem C11_generate_size_bounds_witness :
    ((((Sprite.Generate ⟨(3, 2), []⟩ ⟨0, 0, 0, 255⟩).pixels.length : Nat) : Int) = 2 ∧
      (∀ row ∈ (Sprite.Generate ⟨(3, 2), []⟩ ⟨0, 0, 0, 255⟩).pixels, (row.length : Int) = 3) ∧
      ((Sprite.Generate ⟨(3, 2), []⟩ ⟨0, 0, 0, 255⟩).GetColors.map Prod.snd).sum = 3 * 2) ∧
    ((((Sprite.GenerateFromString ⟨(3, 2), []⟩ " r\nab" 0).pixels.length : Nat) : Int) ≤ 2 ∧
      (∀ row ∈ (Sprite.GenerateFromString ⟨(3, 2), []⟩ " r\nab" 0).pixels,
        (row.length : Int) ≤ 3) ∧
      ((Sprite.GenerateFromString ⟨(3, 2), []⟩ " r\nab" 0).GetColors.map Prod.snd).sum
        ≤ 3 * 2) :=
  ⟨(C11_generate_size_bounds 3 2 (by decide) (by decide) (by decide) (by decide)).1
      ⟨(3, 2), []⟩ ⟨0, 0, 0, 255⟩ rfl,
   (C11_generate_size_bounds 3 2 (by decide) (by decide) (by decide) (by decide)).2.1
      ⟨(3, 2), []⟩ " r\nab" 0 rfl⟩

/-- C12 (counterexample): on a sprite whose `Size` is the minimum `int` in both
components, `Size[1]-1` and `Size[0]-1` wrap to the maximum `int`, no sample is
skipped, and `GenerateFromSprite` without `overwriteOwnSize` stores the sample
at row `0`, column `0`, although every row and column index is at or beyond
that `Size`; no sample has a row index below the height, so the condition on
the alphas holds. -/
theorem C12_generateFromSprite_minInt_size :
    (∀ (iy ix : Nat) (x : Color), sampleAt [[⟨1, 1, 1, 1⟩]] iy ix = some x →
      (iy : Int) < -9223372036854775808 → (ix : Int) < -9223372036854775808 → x.a ≠ 0) ∧
    ¬ (∀ spr', Sprite.GenerateFromSprite
          ⟨(-9223372036854775808, -9223372036854775808), []⟩ [[⟨1, 1, 1, 1⟩]] false
          = some spr' →
        ∀ iy ix : Nat, ((-9223372036854775808 : Int) ≤ (iy : Int) ∨
            (-9223372036854775808 : Int) ≤ (ix : Int)) →
          cellAt spr'.pixels iy ix = none) := by
  constructor
  · intro iy ix x _ h _
    omega
  · intro h
    have h0 := h ⟨(-9223372036854775808, -9223372036854775808), [[⟨1, 1, 1, 1⟩]]⟩
      (by decide) 0 0 (Or.inl (by decide))
    revert h0
    decide

/-- C12 (amended): let `(w, h)` be the effective size (the source grid's
first-row length and row count with `overwriteOwnSize`, the sprite's `Size`
otherwise), each component above the minimum `int`, so that `Size[i]-1` does
not overflow.  If every source sample at row index
`< h` and column index `< w` has non-zero alpha, then for each such sample
`(r, g, b, a)` `GenerateFromSprite` completes and stores at the same position
the colour `R = (r / a) mod 256`, `G = (g / a) mod 256`, `B = (b / a) mod 256`,
`A = a mod 256`; a completed call has `Size = (w, h)` and no cell at a row
index `≥ h` or a column index `≥ w`; and the call completes whenever the grid
is non-empty or `overwriteOwnSize` is off. -/
theorem C12_generateFromSprite_cells (spr : Sprite) (sprite : List (List Color))
    (overwriteOwnSize : Bool) (w h : Int)
    (heff : (w, h) = if overwriteOwnSize = true
      then (((sprite.headD []).length : Int), (sprite.length : Int)) else spr.Size)
    (hw : -9223372036854775808 < w ∧ w < 9223372036854775808)
    (hh : -9223372036854775808 < h ∧ h < 9223372036854775808)
    (hnz : ∀ (iy ix : Nat) (x : Color), sampleAt sprite iy ix = some x →
      (iy : Int) < h → (ix : Int) < w → x.a ≠ 0) :
    (∀ (iy ix : Nat) (x : Color), sampleAt sprite iy ix = some x →
      (iy : Int) < h → (ix : Int) < w →
      ∃ spr' col, spr.GenerateFromSprite sprite overwriteOwnSize = some spr' ∧
        cellAt spr'.pixels iy ix = some col ∧
        col.R.val = x.r / x.a % 256 ∧ col.G.val = x.g / x.a % 256 ∧
        col.B.val = x.b / x.a % 256 ∧ col.A.val = x.a % 256) ∧
    (∀ spr', spr.GenerateFromSprite sprite overwriteOwnSize = some spr' →
      spr'.Size = (w, h) ∧
      ∀ iy ix : Nat, (h ≤ (iy : Int) ∨ w ≤ (ix : Int)) → cellAt spr'.pixels iy ix = none) ∧
    ((sprite ≠ [] ∨ overwriteOwnSize = false) →
      (spr.GenerateFromSprite sprite overwriteOwnSize).isSome = true) := by
  have hrun := GenerateFromSprite_eq spr sprite overwriteOwnSize w h heff hw hh hnz
  refine ⟨?_, ?_, ?_⟩
  · intro iy ix x hs hiy hix
    have hne : sprite ≠ [] := by
      intro he
      rw [he] at hs
      simp [sampleAt] at hs
    refine ⟨_, storedColor x, hrun (Or.inl hne), ?_, rfl, rfl, rfl, rfl⟩
    simp only
    rw [cellAt_map_take, if_pos ⟨by omega, by omega⟩, hs]
    rfl
  · intro spr' hspr'
    have hne : sprite ≠ [] ∨ overwriteOwnSize = false := by
      by_cases he : sprite = []
      · right
        cases hf : overwriteOwnSize with
        | false => rfl
        | true =>
          rw [he, hf] at hspr'
          simp [Sprite.GenerateFromSprite, index?] at hspr'
      · exact Or.inl he
    rw [hrun hne] at hspr'
    have hs := Option.some.inj hspr'
    subst hs
    refine ⟨rfl, ?_⟩
    intro iy ix hout
    simp only
    rw [cellAt_map_take, if_neg (by omega)]
  · intro hne
    rw [hrun hne]
    rfl

/-- Witness of C12: a one-row source grid with two samples into a sprite of
size `(1, 5)` without overwriting the size: the first sample is stored, the
second, at column `1`, is not. -/
theorem C12_generateFromSprite_cells_witness :
    (∃ spr' col,
      Sprite.GenerateFromSprite ⟨(1, 5), []⟩ [[⟨65535, 0, 257, 65535⟩, ⟨0, 0, 0, 0⟩]] false
        = some spr' ∧
      cellAt spr'.pixels 0 0 = some col ∧
      col.R.val = 65535 / 65535 % 256 ∧ col.G.val = 0 / 65535 % 256 ∧
      col.B.val = 257 / 65535 % 256 ∧ col.A.val = 65535 % 256) ∧
    Sprite.GenerateFromSprite ⟨(1, 5), []⟩ [[⟨65535, 0, 257, 65535⟩, ⟨0, 0, 0, 0⟩]] false
      = some ⟨(1, 5), [[⟨1, 0, 0, 255⟩]]⟩ :=
  ⟨(C12_generateFromSprite_cells ⟨(1, 5), []⟩ [[⟨65535, 0, 257, 65535⟩, ⟨0, 0, 0, 0⟩]]
      false 1 5 rfl (by decide) (by decide)
      (by
        intro iy ix x hs _ hix
        have h2 : ix = 0 := by omega
        subst h2
        cases iy with
        | zero =>
          simp only [sampleAt, List.getElem?_cons_zero, Option.some_bind,
            Option.some.injEq] at hs
          subst hs
          decide
        | succ n => simp [sampleAt] at hs)).1 0 0 ⟨65535, 0, 257, 65535⟩ rfl (by decide) (by decide),
   by decide⟩

/-- C13 (the code also faults without a zero alpha): with `overwriteOwnSize`
set and a source grid of no rows, `len(sprite[0])` indexes the empty grid, a
run-time panic although no sample has alpha `0`; without the flag the same
grid gives the empty sprite, and a sample with alpha `0` that is not skipped
makes the division panic.  `GenerateFromImage`, which takes the size from the
image bounds, completes on an image of no pixels. -/
theorem C13_generateFromSprite_empty_faults :
    Sprite.GenerateFromSprite ⟨(5, 5), []⟩ [] true = none ∧
    Sprite.GenerateFromSprite ⟨(5, 5), []⟩ [] false = some ⟨(5, 5), []⟩ ∧
    Sprite.GenerateFromSprite ⟨(5, 5), []⟩ [[]] true = some ⟨(0, 1), [[]]⟩ ∧
    Sprite.GenerateFromSprite ⟨(5, 5), []⟩ [[⟨0, 0, 0, 0⟩]] false = none ∧
    Sprite.GenerateFromImage ⟨(5, 5), []⟩ ⟨(0, 0), fun _ _ => ⟨0, 0, 0, 0⟩⟩ true
      = some ⟨(0, 0), []⟩ := by
  decide

/-- C14: for every image whose bounds start at the origin with width `W ≥ 1` and
height `H ≥ 1`, every starting sprite and every `overwriteOwnSize` flag,
`GenerateFromImage(img, flag)` gives the same result (same `Size`, same grid,
or a fault in both) as `GenerateFromSprite(grid, flag)` on the grid of `H` rows
of `W` columns with `grid[y][x] = At(x, y)`. -/
theorem C14_generateFromImage_refines (spr : Sprite) (img : Image) (W H : Nat)
    (_hW : 1 ≤ W) (hH : 1 ≤ H) (hmax : img.Max = ((W : Int), (H : Int)))
    (overwriteOwnSize : Bool) :
    spr.GenerateFromImage img overwriteOwnSize
        = spr.GenerateFromSprite (imageGrid img) overwriteOwnSize ∧
    (imageGrid img).length = H ∧
    (∀ row ∈ imageGrid img, row.length = W) ∧
    (∀ x y : Nat, x < W → y < H →
      sampleAt (imageGrid img) y x = some (img.At (x : Int) (y : Int))) := by
  have hlen : (imageGrid img).length = H := by
    simp [imageGrid, rangeInt, hmax]
  have hrowlen : ∀ row ∈ imageGrid img, row.length = W := by
    intro row hrow
    simp only [imageGrid, rangeInt, hmax, List.mem_map] at hrow
    obtain ⟨y, _, rfl⟩ := hrow
    simp
  refine ⟨?_, hlen, hrowlen, ?_⟩
  · unfold Sprite.GenerateFromImage Sprite.GenerateFromSprite
    cases overwriteOwnSize with
    | true =>
      obtain ⟨row0, hrow0⟩ := getElem?_some_of_lt (imageGrid img) 0 (by omega)
      have hidx : index? (imageGrid img) 0 = some row0 := by
        simp [index?, hrow0]
      have hsz : (((row0.length : Int)), ((imageGrid img).length : Int)) = img.Max := by
        rw [hrowlen row0 (List.getElem?_mem hrow0), hlen, hmax]
      rw [if_pos rfl, if_pos rfl, hidx]
      simp only
      rw [hsz, fromImageRows_imageGrid]
    | false =>
      rw [if_neg (by simp), if_neg (by simp), fromImageRows_imageGrid]
  · intro x y hx hy
    simp [sampleAt, imageGrid, rangeInt, hmax, List.getElem?_range, hx, hy]

/-- Witness of C14: a 2×1 image whose second sample has alpha `0`, drawn into a
sprite of size `(1, 5)` without overwriting the size. -/
theorem C14_generateFromImage_refines_witness :
    Sprite.GenerateFromImage ⟨(1, 5), []⟩
        ⟨(2, 1), fun x _ => if x = 0 then ⟨65535, 0, 257, 65535⟩ else ⟨0, 0, 0, 0⟩⟩ false
      = Sprite.GenerateFromSprite ⟨(1, 5), []⟩
          (imageGrid ⟨(2, 1), fun x _ => if x = 0 then ⟨65535, 0, 257, 65535⟩ else ⟨0, 0, 0, 0⟩⟩)
          false ∧
    Sprite.GenerateFromImage ⟨(1, 5), []⟩
        ⟨(2, 1), fun x _ => if x = 0 then ⟨65535, 0, 257, 65535⟩ else ⟨0, 0, 0, 0⟩⟩ false
      = some ⟨(1, 5), [[⟨1, 0, 0, 255⟩]]⟩ ∧
    Sprite.GenerateFromImage ⟨(1, 5), []⟩
        ⟨(2, 1), fun x _ => if x = 0 then ⟨65535, 0, 257, 65535⟩ else ⟨0, 0, 0, 0⟩⟩ true
      = none :=
  ⟨(C14_generateFromImage_refines ⟨(1, 5), []⟩
      ⟨(2, 1), fun x _ => if x = 0 then ⟨65535, 0, 257, 65535⟩ else ⟨0, 0, 0, 0⟩⟩
      2 1 (by decide) (by decide) rfl false).1,
   by decide, by decide⟩

/-- C15: for every source grid of `R ≥ 1` rows of `C` columns each (lengths
being Go `int`s) with all alphas non-zero, and every prior `Size`:
`GenerateFromSprite(grid, true)` completes, sets `Size` to `(C, R)` and yields
the conversion of every source cell, a grid of exactly `R` rows of `C` cells;
`GenerateFromSprite(grid, false)` completes and leaves `Size` unchanged. -/
theorem C15_generateFromSprite_size (spr : Sprite) (sprite : List (List Color))
    (R C : Nat) (hR : 1 ≤ R) (hrows : sprite.length = R)
    (hrect : ∀ row ∈ sprite, row.length = C)
    (hnz : ∀ row ∈ sprite, ∀ x ∈ row, x.a ≠ 0)
    (hRb : R < 9223372036854775808) (hCb : C < 9223372036854775808) :
    (∃ spr', spr.GenerateFromSprite sprite true = some spr' ∧
      spr'.Size = ((C : Int), (R : Int)) ∧
      spr'.pixels = sprite.map (fun row => row.map storedColor) ∧
      spr'.pixels.length = R ∧
      ∀ row ∈ spr'.pixels, row.length = C) ∧
    (∃ spr', spr.GenerateFromSprite sprite false = some spr' ∧ spr'.Size = spr.Size) := by
  constructor
  · have hne : sprite ≠ [] := by
      intro he
      rw [he] at hrows
      simp at hrows
      omega
    have hhead : (sprite.headD []).length = C := by
      cases sprite with
      | nil => exact absurd rfl hne
      | cons row0 rest => exact hrect row0 (List.mem_cons_self _ _)
    have hrun := GenerateFromSprite_eq spr sprite true (C : Int) (R : Int)
      (by rw [if_pos rfl, hhead, hrows]) (by omega) (by omega)
      (by
        intro iy ix x hs _ _
        obtain ⟨row, hrow, hx⟩ := sampleAt_mem sprite iy ix x hs
        exact hnz row hrow x hx)
      (Or.inl hne)
    have hpix : (sprite.take (R : Int).toNat).map
        (fun row => (row.take (C : Int).toNat).map storedColor)
        = sprite.map (fun row => row.map storedColor) := by
      simp only [Int.toNat_ofNat]
      rw [List.take_of_length_le (by omega)]
      apply List.map_congr_left
      intro row hrow
      rw [List.take_of_length_le (by rw [hrect row hrow])]
    rw [hpix] at hrun
    refine ⟨_, hrun, rfl, rfl, ?_, ?_⟩
    · simp [hrows]
    · intro row hrow
      simp only [List.mem_map] at hrow
      obtain ⟨src, hsrc, rfl⟩ := hrow
      rw [List.length_map, hrect src hsrc]
  · obtain ⟨pixels, hp⟩ := GenerateFromSprite_keep_size spr sprite hnz
    exact ⟨_, hp, rfl⟩

/-- Witness of C15: a source grid of one row of two opaque samples. -/
theorem C15_generateFromSprite_size_witness :
    (∃ spr', Sprite.GenerateFromSprite ⟨(7, 9), []⟩
        [[⟨65535, 0, 0, 65535⟩, ⟨0, 0, 65535, 65535⟩]] true = some spr' ∧
      spr'.Size = (((2 : Nat) : Int), ((1 : Nat) : Int)) ∧
      spr'.pixels = [[⟨65535, 0, 0, 65535⟩, ⟨0, 0, 65535, 65535⟩]].map
        (fun row => row.map storedColor) ∧
      spr'.pixels.length = 1 ∧
      ∀ row ∈ spr'.pixels, row.length = 2) ∧
    (∃ spr', Sprite.GenerateFromSprite ⟨(7, 9), []⟩
        [[⟨65535, 0, 0, 65535⟩, ⟨0, 0, 65535, 65535⟩]] false = some spr' ∧
      spr'.Size = (⟨(7, 9), []⟩ : Sprite).Size) :=
  C15_generateFromSprite_size ⟨(7, 9), []⟩ [[⟨65535, 0, 0, 65535⟩, ⟨0, 0, 65535, 65535⟩]]
    1 2 (by decide) (by decide) (by decide) (by decide) (by decide) (by decide)

/-- C16: for every voxel sprite of size `(w, h, d)` with `w, h, d ≥ 0` and every
colour `c`, after `Generate(c)` the grid has exactly `d` planes, each of exactly
`h` rows, each of exactly `w` cells, every cell equal to `c`, and `GetColors()`
is the mapping `{c -> w*h*d}` when `w*h*d > 0` and the empty mapping otherwise. -/
theorem C16_voxel_generate_census (spr : VoxelSprite) (w h d : Int) (c : RGBA)
    (hsize : spr.Size = (w, h, d)) (hw : 0 ≤ w) (hh : 0 ≤ h) (hd : 0 ≤ d) :
    ((spr.Generate c).pixels.length : Int) = d ∧
    (∀ plane ∈ (spr.Generate c).pixels, (plane.length : Int) = h ∧
      ∀ row ∈ plane, (row.length : Int) = w ∧ ∀ cell ∈ row, cell = c) ∧
    (spr.Generate c).GetColors = (if 0 < w * h * d then [(c, w * h * d)] else []) := by
  obtain ⟨wn, rfl⟩ := Int.eq_ofNat_of_zero_le hw
  obtain ⟨hn, rfl⟩ := Int.eq_ofNat_of_zero_le hh
  obtain ⟨dn, rfl⟩ := Int.eq_ofNat_of_zero_le hd
  have hp : (spr.Generate c).pixels
      = List.replicate dn (List.replicate hn (List.replicate wn c)) := by
    rw [VoxelGenerate_pixels, hsize]
    simp only [Int.toNat_ofNat]
  refine ⟨?_, ?_, ?_⟩
  · rw [hp, List.length_replicate]
  · intro plane hplane
    rw [hp] at hplane
    obtain ⟨_, rfl⟩ := List.mem_replicate.mp hplane
    refine ⟨by rw [List.length_replicate], ?_⟩
    intro row hr
    obtain ⟨_, rfl⟩ := List.mem_replicate.mp hr
    refine ⟨by rw [List.length_replicate], ?_⟩
    intro cell hcell
    exact (List.mem_replicate.mp hcell).2
  · have hg : (spr.Generate c).GetColors
        = (List.replicate (dn * (hn * wn)) c).foldl (fun out x => mapIncr out x) [] := by
      unfold VoxelSprite.GetColors
      rw [foldl_planes_eq_foldl_flatten, hp, List.map_replicate, flatten_replicate_rows,
        flatten_replicate_rows]
    rw [hg, foldl_mapIncr_replicate_nil]
    have hprod : ((wn : Int) * (hn : Int) * (dn : Int)) = ((dn * (hn * wn) : Nat) : Int) := by
      push_cast; ring
    rw [hprod]
    by_cases h0 : dn * (hn * wn) = 0
    · rw [if_pos h0, if_neg (by omega)]
    · rw [if_neg h0, if_pos (by omega)]

/-- Witness of C16 on a 2×3×1 voxel sprite. -/
theorem C16_voxel_generate_census_witness :
    (((VoxelSprite.Generate ⟨(2, 3, 1), []⟩ ⟨255, 0, 0, 255⟩).pixels.length : Nat) : Int) = 1 ∧
    (∀ plane ∈ (VoxelSprite.Generate ⟨(2, 3, 1), []⟩ ⟨255, 0, 0, 255⟩).pixels,
      (plane.length : Int) = 3 ∧
      ∀ row ∈ plane, (row.length : Int) = 2 ∧ ∀ cell ∈ row, cell = ⟨255, 0, 0, 255⟩) ∧
    (VoxelSprite.Generate ⟨(2, 3, 1), []⟩ ⟨255, 0, 0, 255⟩).GetColors
      = (if (0 : Int) < 2 * 3 * 1 then [(⟨255, 0, 0, 255⟩, 2 * 3 * 1)] else []) :=
  C16_voxel_generate_census ⟨(2, 3, 1), []⟩ 2 3 1 ⟨255, 0, 0, 255⟩ rfl
    (by decide) (by decide) (by decide)

/-- C17: for every sprite, whatever its size and prior grid, and every colour
`c`, calling `Generate(c)` twice leaves the same sprite, and so the same
`GetColors` mapping, as calling it once, and the result of `Generate` is the
same for any two prior grids under the same `Size`. -/
theorem C17_generate_idempotent (spr : Sprite) (c : RGBA) (prior : List (List RGBA)) :
    (spr.Generate c).Generate c = spr.Generate c ∧
    ((spr.Generate c).Generate c).GetColors = (spr.Generate c).GetColors ∧
    Sprite.Generate ⟨spr.Size, prior⟩ c = spr.Generate c :=
  ⟨rfl, rfl, rfl⟩

/-- C18: for every sprite and all non-negative `x, y`, `SetPixel(x, y, c)`
completes, returns `true` exactly when `y` is below the number of rows and `x`
below the length of row `y`, its flag equals the found flag of
`GetPixel(x, y)`, and when it returns `false` the sprite is unchanged. -/
theorem C18_setPixel_flag (spr : Sprite) (x y : Int) (c : RGBA)
    (hx : 0 ≤ x) (hy : 0 ≤ y) :
    ∃ spr' ok col, spr.SetPixel x y c = some (spr', ok) ∧
      spr.GetPixel x y = some (col, ok) ∧
      (ok = true ↔ ∃ row, spr.pixels[y.toNat]? = some row ∧ x < (row.length : Int)) ∧
      (ok = false → spr' = spr) := by
  obtain ⟨xn, rfl⟩ := Int.eq_ofNat_of_zero_le hx
  obtain ⟨yn, rfl⟩ := Int.eq_ofNat_of_zero_le hy
  simp only [Int.toNat_ofNat]
  cases hrow : spr.pixels[yn]? with
  | none =>
    have hcell : cellAt spr.pixels yn xn = none := by simp [cellAt, hrow]
    refine ⟨spr, false, ⟨0, 0, 0, 0⟩, SetPixel_out spr xn yn c hcell, ?_, ?_, fun _ => rfl⟩
    · rw [GetPixel_eq_cellAt, hcell]
    · simp
  | some row =>
    by_cases hxl : xn < row.length
    · have hcell : cellAt spr.pixels yn xn = some row[xn] := by
        simp [cellAt, hrow, List.getElem?_eq_getElem hxl]
      refine ⟨_, true, row[xn], SetPixel_in spr xn yn c row hrow hxl, ?_, ?_, ?_⟩
      · rw [GetPixel_eq_cellAt, hcell]
      · simp only [true_iff]
        exact ⟨row, rfl, by omega⟩
      · intro h; cases h
    · have hcell : cellAt spr.pixels yn xn = none := by
        simp [cellAt, hrow, List.getElem?_eq_none (Nat.le_of_not_lt hxl)]
      refine ⟨spr, false, ⟨0, 0, 0, 0⟩, SetPixel_out spr xn yn c hcell, ?_, ?_, fun _ => rfl⟩
      · rw [GetPixel_eq_cellAt, hcell]
      · constructor
        · intro h; cases h
        · rintro ⟨row', hr', hlt⟩
          have : row' = row := (Option.some.inj hr').symm
          subst this
          omega

/-- Witness of C18 on a 2×2 sprite: one position inside, one outside. -/
theorem C18_setPixel_flag_witness :
    (∃ spr' ok col,
      (Sprite.Generate ⟨(2, 2), []⟩ ⟨0, 0, 0, 255⟩).SetPixel 2 1 ⟨255, 0, 0, 255⟩
        = some (spr', ok) ∧
      (Sprite.Generate ⟨(2, 2), []⟩ ⟨0, 0, 0, 255⟩).GetPixel 2 1 = some (col, ok) ∧
      (ok = true ↔ ∃ row,
        (Sprite.Generate ⟨(2, 2), []⟩ ⟨0, 0, 0, 255⟩).pixels[(1 : Int).toNat]? = some row ∧
        (2 : Int) < (row.length : Int)) ∧
      (ok = false → spr' = Sprite.Generate ⟨(2, 2), []⟩ ⟨0, 0, 0, 255⟩)) ∧
    (Sprite.Generate ⟨(2, 2), []⟩ ⟨0, 0, 0, 255⟩).SetPixel 2 1 ⟨255, 0, 0, 255⟩
      = some (Sprite.Generate ⟨(2, 2), []⟩ ⟨0, 0, 0, 255⟩, false) :=
  ⟨C18_setPixel_flag (Sprite.Generate ⟨(2, 2), []⟩ ⟨0, 0, 0, 255⟩) 2 1 ⟨255, 0, 0, 255⟩
      (by decide) (by decide),
   by decide⟩

/-- C19: for every source sample `(r, g, b, a)` with `0 < a ≤ 65535` and
`r, g, b ≤ a`, the colour stored by `GenerateFromSprite` and by
`GenerateFromImage` has each of `R`, `G`, `B` equal to `1` when its sample
equals `a` and `0` otherwise, and `A = a mod 256`; for the samples
`(R*257, G*257, B*257, 65535)` of an 8-bit colour `RGBA{R, G, B, 255}` the
stored colour has alpha `255` and each colour channel `1` if the original
channel is `255` and `0` otherwise, so it equals the original exactly when
`R = G = B = 0`. -/
theorem C19_unpremultiply_collapses (spr : Sprite) (x : Color)
    (ha0 : 0 < x.a) (_ha : x.a ≤ 65535)
    (hr : x.r ≤ x.a) (hg : x.g ≤ x.a) (hb : x.b ≤ x.a) :
    (∃ col, spr.GenerateFromSprite [[x]] true = some ⟨(1, 1), [[col]]⟩ ∧
      spr.GenerateFromImage ⟨(1, 1), fun _ _ => x⟩ true = some ⟨(1, 1), [[col]]⟩ ∧
      col.R.val = (if x.r = x.a then 1 else 0) ∧
      col.G.val = (if x.g = x.a then 1 else 0) ∧
      col.B.val = (if x.b = x.a then 1 else 0) ∧
      col.A.val = x.a % 256) ∧
    (∀ R G B : Fin 256,
      spr.GenerateFromSprite [[⟨R.val * 257, G.val * 257, B.val * 257, 65535⟩]] true
        = some ⟨(1, 1), [[⟨if R = 255 then 1 else 0, if G = 255 then 1 else 0,
            if B = 255 then 1 else 0, 255⟩]]⟩ ∧
      ((⟨if R = 255 then 1 else 0, if G = 255 then 1 else 0,
          if B = 255 then 1 else 0, 255⟩ : RGBA) = ⟨R, G, B, 255⟩
        ↔ R = 0 ∧ G = 0 ∧ B = 0)) := by
  constructor
  · refine ⟨storedColor x, GenerateFromSprite_single spr x (by omega),
      GenerateFromImage_single spr x (by omega),
      uint8_div_of_le x.r x.a ha0 hr, uint8_div_of_le x.g x.a ha0 hg,
      uint8_div_of_le x.b x.a ha0 hb, rfl⟩
  · intro R G B
    have hch : ∀ c : Fin 256, uint8 (c.val * 257 / 65535) = if c = 255 then 1 else 0 := by
      intro c
      apply Fin.ext
      have hc := c.isLt
      by_cases h : c = 255
      · subst h; rw [if_pos rfl]; rfl
      · rw [if_neg h]
        have hv : c.val ≠ 255 := fun e => h (Fin.ext e)
        show c.val * 257 / 65535 % 256 = 0
        omega
    have hfix : ∀ c : Fin 256, (if c = 255 then (1 : Fin 256) else 0) = c ↔ c = 0 := by
      intro c
      by_cases h : c = 255
      · subst h; decide
      · rw [if_neg h]
        exact eq_comm
    constructor
    · have hne : (⟨R.val * 257, G.val * 257, B.val * 257, 65535⟩ : Color).a ≠ 0 := by
        show (65535 : Nat) ≠ 0
        decide
      rw [GenerateFromSprite_single spr _ hne]
      simp only [storedColor, hch]
      rfl
    · rw [RGBA.mk.injEq, hfix R, hfix G, hfix B]
      simp

/-- Witness of C19: the samples of the opaque 8-bit colour `RGBA{255, 128, 0, 255}`. -/
theorem C19_unpremultiply_collapses_witness :
    (∃ col, Sprite.GenerateFromSprite ⟨(0, 0), []⟩ [[⟨65535, 32896, 0, 65535⟩]] true
        = some ⟨(1, 1), [[col]]⟩ ∧
      Sprite.GenerateFromImage ⟨(0, 0), []⟩ ⟨(1, 1), fun _ _ => ⟨65535, 32896, 0, 65535⟩⟩ true
        = some ⟨(1, 1), [[col]]⟩ ∧
      col.R.val = (if 65535 = 65535 then 1 else 0) ∧
      col.G.val = (if 32896 = 65535 then 1 else 0) ∧
      col.B.val = (if 0 = 65535 then 1 else 0) ∧
      col.A.val = 65535 % 256) ∧
    Sprite.GenerateFromSprite ⟨(0, 0), []⟩ [[⟨65535, 32896, 0, 65535⟩]] true
      = some ⟨(1, 1), [[⟨1, 0, 0, 255⟩]]⟩ :=
  ⟨(C19_unpremultiply_collapses ⟨(0, 0), []⟩ ⟨65535, 32896, 0, 65535⟩
      (by decide) (by decide) (by decide) (by decide) (by decide)).1,
   by decide⟩

/-- C20: for every sprite and every in-range position `(x, y)` holding the
colour `old`, `SetPixel(x, y, c)` returns `true` and changes only that cell:
`Size`, the number of rows and the length of every row are unchanged,
`GetPixel` is unchanged at every other non-negative position, and each
`GetColors` count changes by minus one for `old` and plus one for `c`. -/
theorem C20_setPixel_frame (spr : Sprite) (c old : RGBA) (x y : Int) (row : List RGBA)
    (hy0 : 0 ≤ y) (hrow : spr.pixels[y.toNat]? = some row)
    (hx0 : 0 ≤ x) (hold : row[x.toNat]? = some old) :
    ∃ spr', spr.SetPixel x y c = some (spr', true) ∧
      spr'.Size = spr.Size ∧
      spr'.pixels.length = spr.pixels.length ∧
      (∀ r : Nat, (spr'.pixels[r]?).map List.length = (spr.pixels[r]?).map List.length) ∧
      (∀ x' y' : Int, 0 ≤ x' → 0 ≤ y' → ¬ (x' = x ∧ y' = y) →
        spr'.GetPixel x' y' = spr.GetPixel x' y') ∧
      spr'.GetPixel x y = some (c, true) ∧
      (∀ k : RGBA, mapGet spr'.GetColors k
        = mapGet spr.GetColors k - (if k = old then 1 else 0) + (if k = c then 1 else 0)) := by
  obtain ⟨xn, rfl⟩ := Int.eq_ofNat_of_zero_le hx0
  obtain ⟨yn, rfl⟩ := Int.eq_ofNat_of_zero_le hy0
  simp only [Int.toNat_ofNat] at hrow hold
  have hylt : yn < spr.pixels.length := lt_of_getElem?_some _ _ _ hrow
  have hxlt : xn < row.length := lt_of_getElem?_some _ _ _ hold
  have hcell : ∀ r q : Nat, cellAt (spr.pixels.set yn (row.set xn c)) r q
      = if yn = r ∧ xn = q then some c else cellAt spr.pixels r q := by
    intro r q
    rw [cellAt_set _ _ _ _ _ hylt]
    by_cases h1 : yn = r
    · subst h1
      have hb : cellAt spr.pixels yn q = row[q]? := by simp [cellAt, hrow]
      rw [if_pos rfl, List.getElem?_set, hb]
      by_cases h2 : xn = q
      · subst h2
        rw [if_pos rfl, if_pos hxlt, if_pos ⟨rfl, rfl⟩]
      · rw [if_neg h2, if_neg (fun h => h2 h.2)]
    · rw [if_neg h1, if_neg (fun h => h1 h.1)]
  refine ⟨{ spr with pixels := spr.pixels.set yn (row.set xn c) },
    SetPixel_in spr xn yn c row hrow hxlt, rfl, ?_, ?_, ?_, ?_, ?_⟩
  · simp
  · intro r
    simp only [List.getElem?_set]
    by_cases h1 : yn = r
    · subst h1
      rw [if_pos rfl, if_pos hylt, hrow]
      simp
    · rw [if_neg h1]
  · intro x' y' hx' hy' hne
    obtain ⟨xm, rfl⟩ := Int.eq_ofNat_of_zero_le hx'
    obtain ⟨ym, rfl⟩ := Int.eq_ofNat_of_zero_le hy'
    rw [GetPixel_eq_cellAt, GetPixel_eq_cellAt]
    simp only
    rw [hcell ym xm, if_neg (fun h => hne ⟨by omega, by omega⟩)]
  · rw [GetPixel_eq_cellAt]
    simp only
    rw [hcell yn xn, if_pos ⟨rfl, rfl⟩]
  · intro k
    rw [GetColors_get, GetColors_get]
    have := count_flatten_set_add k c old xn spr.pixels yn row hrow hold
    simp only
    split_ifs at this ⊢ <;> omega

/-- Witness of C20: the cell `(1, 0)` of a 2×2 black sprite set to red. -/
theorem C20_setPixel_frame_witness :
    ∃ spr', (Sprite.Generate ⟨(2, 2), []⟩ ⟨0, 0, 0, 255⟩).SetPixel 1 0 ⟨255, 0, 0, 255⟩
        = some (spr', true) ∧
      spr'.Size = (Sprite.Generate ⟨(2, 2), []⟩ ⟨0, 0, 0, 255⟩).Size ∧
      spr'.pixels.length = (Sprite.Generate ⟨(2, 2), []⟩ ⟨0, 0, 0, 255⟩).pixels.length ∧
      (∀ r : Nat, (spr'.pixels[r]?).map List.length
        = ((Sprite.Generate ⟨(2, 2), []⟩ ⟨0, 0, 0, 255⟩).pixels[r]?).map List.length) ∧
      (∀ x' y' : Int, 0 ≤ x' → 0 ≤ y' → ¬ (x' = 1 ∧ y' = 0) →
        spr'.GetPixel x' y'
          = (Sprite.Generate ⟨(2, 2), []⟩ ⟨0, 0, 0, 255⟩).GetPixel x' y') ∧
      spr'.GetPixel 1 0 = some (⟨255, 0, 0, 255⟩, true) ∧
      (∀ k : RGBA, mapGet spr'.GetColors k
        = mapGet (Sprite.Generate ⟨(2, 2), []⟩ ⟨0, 0, 0, 255⟩).GetColors k
          - (if k = ⟨0, 0, 0, 255⟩ then 1 else 0)
          + (if k = ⟨255, 0, 0, 255⟩ then 1 else 0)) :=
  C20_setPixel_frame (Sprite.Generate ⟨(2, 2), []⟩ ⟨0, 0, 0, 255⟩) ⟨255, 0, 0, 255⟩
    ⟨0, 0, 0, 255⟩ 1 0 [⟨0, 0, 0, 255⟩, ⟨0, 0, 0, 255⟩]
    (by decide) (by decide) (by decide) (by decide)

end Npglib
